import Mathlib

/-!
Shallow embedding of the app-modbus-go gateway core, covering the
type/register converter (internal/pkg/modbusserver/converter.go), the
TTL register cache (internal/pkg/mappingmanager/cache.go), the mapping
index (internal/pkg/mappingmanager/mappingmanager.go), the Modbus server
register handlers (internal/pkg/modbusserver) and the MQTT
request/response correlation (internal/pkg/mqtt/client.go).

Go maps are modelled as association lists with Go assignment semantics
(replace the entry if the key exists, otherwise append); Go float64 and
float32 values are modelled as exact rationals; machine integers are
Nat/Int with explicit wrapping where Go wraps.
-/

namespace AppModbus

/-! ## Go map model: association lists with replace-or-append assignment -/

/-- Lookup in a Go map modelled as an association list (first match). -/
def goLookup {α β : Type} [DecidableEq α] : List (α × β) → α → Option β
  | [], _ => none
  | (k2, v) :: rest, k => if k2 = k then some v else goLookup rest k

/-- Go map assignment `m[k] = v`: replace the existing entry or append. -/
def goInsert {α β : Type} [DecidableEq α] : List (α × β) → α → β → List (α × β)
  | [], k, v => [(k, v)]
  | (k2, v2) :: rest, k, v =>
    if k2 = k then (k, v) :: rest else (k2, v2) :: goInsert rest k v

/-- Go map `delete(m, k)`. -/
def goErase {α β : Type} [DecidableEq α] : List (α × β) → α → List (α × β)
  | [], _ => []
  | (k2, v) :: rest, k => if k2 = k then goErase rest k else (k2, v) :: goErase rest k

/-- Number of entries stored under key `k` (1 for a well-formed map hit). -/
def countKey {α β : Type} [DecidableEq α] (m : List (α × β)) (k : α) : Nat :=
  (m.filter (fun p => decide (p.1 = k))).length

/-- Well-formedness of the association-list model of a Go map: keys unique. -/
def keysNodup {α β : Type} (m : List (α × β)) : Prop :=
  (m.map Prod.fst).Nodup

deriving instance DecidableEq for Except

/-! ## Scalar runtime values (Go interface values)

Go float64/float32 are modelled as exact rationals; the Go runtime
types that appear in the converter are tagged explicitly. -/

inductive GoValue where
  | vBool : Bool → GoValue
  | vInt : Int → GoValue
  | vInt16 : Int → GoValue
  | vInt32 : Int → GoValue
  | vInt64 : Int → GoValue
  | vUInt : Nat → GoValue
  | vUInt16 : Nat → GoValue
  | vUInt32 : Nat → GoValue
  | vUInt64 : Nat → GoValue
  | vFloat32 : ℚ → GoValue
  | vFloat64 : ℚ → GoValue
  | vString : String → GoValue
deriving DecidableEq

/-- The Go `%T` type name of a value, used in converter error strings. -/
def goTypeName : GoValue → String
  | .vBool _ => "bool"
  | .vInt _ => "int"
  | .vInt16 _ => "int16"
  | .vInt32 _ => "int32"
  | .vInt64 _ => "int64"
  | .vUInt _ => "uint"
  | .vUInt16 _ => "uint16"
  | .vUInt32 _ => "uint32"
  | .vUInt64 _ => "uint64"
  | .vFloat32 _ => "float32"
  | .vFloat64 _ => "float64"
  | .vString _ => "string"

/-! ## Machine integer conversions (Go semantics) -/

/-- Go conversion to uint16 from an integer: wraps modulo 2^16. -/
def wrapU16 (n : Int) : Nat := (n % 65536).toNat

/-- Go conversion to uint32 from an integer: wraps modulo 2^32. -/
def wrapU32 (n : Int) : Nat := (n % 4294967296).toNat

/-- Go conversion to uint64 from an integer: wraps modulo 2^64. -/
def wrapU64 (n : Int) : Nat := (n % 18446744073709551616).toNat

/-- Go conversion to int16: twos-complement wrap into [-2^15, 2^15). -/
def wrapI16 (n : Int) : Int := Int.bmod n 65536

/-- Go conversion to int32: twos-complement wrap into [-2^31, 2^31). -/
def wrapI32 (n : Int) : Int := Int.bmod n 4294967296

/-- Go conversion to int64: twos-complement wrap into [-2^63, 2^63). -/
def wrapI64 (n : Int) : Int := Int.bmod n 18446744073709551616

/-- Go float-to-integer conversion truncates toward zero. (Go leaves the
out-of-range case implementation-specific; the model truncates and lets
the integer conversion wrap.) -/
def qtrunc (q : ℚ) : Int := Int.tdiv q.num q.den

/-! ## Byte (de)serialisation used by binary.BigEndian / binary.LittleEndian -/

inductive ByteOrder where
  | big
  | little
deriving DecidableEq

/-- Byte `i` (little-endian position) of an unsigned integer. -/
def byteAt (v i : Nat) : Nat := v / 256 ^ i % 256

/-- PutUint16/PutUint32/PutUint64: emit `width` bytes of `v` in the
configured byte order. -/
def putBytes (order : ByteOrder) (width v : Nat) : List Nat :=
  match order with
  | .big => ((List.range width).reverse).map (byteAt v)
  | .little => (List.range width).map (byteAt v)

/-- Uint16/Uint32/Uint64: read `width` bytes in the configured order. -/
def getBytes (order : ByteOrder) (width : Nat) (d : List Nat) : Nat :=
  let bs := match order with
    | .big => (List.range width).map (fun i => d.getD i 0)
    | .little => ((List.range width).map (fun i => d.getD i 0)).reverse
  bs.foldl (fun acc b => acc * 256 + b) 0

/-! ## IEEE-754 bit patterns (models of math.Float32bits etc.)

These model the Go standard library, not repository code.  They are
exact for dyadic rationals representable in the target format; for
other rationals the mantissa truncates toward zero and NaN/Inf decode
to 0 (no claim in this development depends on those corners). -/

/-- Fuel that surely suffices to normalise `q` into [1,2) by doubling/halving. -/
def normFuel (q : ℚ) : Nat := q.num.natAbs.size + q.den.size + 64

/-- Normalise a positive rational to `m * 2^e` with `m ∈ [1,2)`. -/
def qnormalize : Nat → ℚ → Int → ℚ × Int
  | 0, m, e => (m, e)
  | fuel + 1, m, e =>
    if m < 1 then qnormalize fuel (m * 2) (e - 1)
    else if 2 ≤ m then qnormalize fuel (m / 2) (e + 1)
    else (m, e)

/-- IEEE-754 encode with `mant` mantissa bits and `ebits` exponent bits. -/
def floatBits (mant ebits : Nat) (q : ℚ) : Nat :=
  if q = 0 then 0
  else
    let s : Nat := if q < 0 then 1 else 0
    let bias : Int := 2 ^ (ebits - 1) - 1
    let mag : ℚ := if q < 0 then -q else q
    let p := qnormalize (normFuel q) mag 0
    let e := p.2
    if bias < e then
      s * 2 ^ (mant + ebits) + (2 ^ ebits - 1) * 2 ^ mant
    else if e < 1 - bias then
      s * 2 ^ (mant + ebits) + (qtrunc (mag * (2 : ℚ) ^ ((mant : Int) - (1 - bias)))).toNat % 2 ^ mant
    else
      s * 2 ^ (mant + ebits) + (e + bias).toNat * 2 ^ mant
        + (qtrunc ((p.1 - 1) * (2 : ℚ) ^ (mant : Int))).toNat % 2 ^ mant

/-- IEEE-754 decode with `mant` mantissa bits and `ebits` exponent bits. -/
def floatFromBits (mant ebits : Nat) (bits : Nat) : ℚ :=
  let s := bits / 2 ^ (mant + ebits) % 2
  let e := bits / 2 ^ mant % 2 ^ ebits
  let f := bits % 2 ^ mant
  let bias : Int := 2 ^ (ebits - 1) - 1
  let mag : ℚ :=
    if e = 0 then (f : ℚ) * (2 : ℚ) ^ (1 - bias - (mant : Int))
    else if e = 2 ^ ebits - 1 then 0
    else (1 + (f : ℚ) / (2 : ℚ) ^ (mant : Int)) * (2 : ℚ) ^ ((e : Int) - bias)
  if s = 1 then -mag else mag

/-- Models math.Float32bits. -/
def float32bits (q : ℚ) : Nat := floatBits 23 8 q

/-- Models math.Float64bits. -/
def float64bits (q : ℚ) : Nat := floatBits 52 11 q

/-- Models math.Float32frombits. -/
def float32frombits (bits : Nat) : ℚ := floatFromBits 23 8 bits

/-! ## Converter (internal/pkg/modbusserver/converter.go) -/

/-- applyScaleOffset: numeric values become float64 `(v - offset) / scale`
(`scale == 0` treated as 1); booleans become int16 0/1; anything else is
passed through unchanged. -/
def applyScaleOffset (value : GoValue) (scale offset : ℚ) : GoValue :=
  let scale := if scale = 0 then 1 else scale
  match value with
  | .vFloat64 v => .vFloat64 ((v - offset) / scale)
  | .vFloat32 v => .vFloat64 ((v - offset) / scale)
  | .vInt v => .vFloat64 (((v : ℚ) - offset) / scale)
  | .vInt16 v => .vFloat64 (((v : ℚ) - offset) / scale)
  | .vInt32 v => .vFloat64 (((v : ℚ) - offset) / scale)
  | .vInt64 v => .vFloat64 (((v : ℚ) - offset) / scale)
  | .vUInt v => .vFloat64 (((v : ℚ) - offset) / scale)
  | .vUInt16 v => .vFloat64 (((v : ℚ) - offset) / scale)
  | .vUInt32 v => .vFloat64 (((v : ℚ) - offset) / scale)
  | .vUInt64 v => .vFloat64 (((v : ℚ) - offset) / scale)
  | .vBool b => if b then .vInt16 1 else .vInt16 0
  | .vString s => .vString s

/-- The one coil word: 0xFF00 for true, 0x0000 for false. -/
def boolWord (b : Bool) : List Nat := if b then [255, 0] else [0, 0]

def boolToBytes (value : GoValue) : Except String (List Nat) :=
  match value with
  | .vBool b => .ok (boolWord b)
  | .vInt n => .ok (boolWord (decide (n ≠ 0)))
  | .vInt16 n => .ok (boolWord (decide (n ≠ 0)))
  | .vInt32 n => .ok (boolWord (decide (n ≠ 0)))
  | .vInt64 n => .ok (boolWord (decide (n ≠ 0)))
  | .vUInt n => .ok (boolWord (decide (n ≠ 0)))
  | .vUInt16 n => .ok (boolWord (decide (n ≠ 0)))
  | .vUInt32 n => .ok (boolWord (decide (n ≠ 0)))
  | .vUInt64 n => .ok (boolWord (decide (n ≠ 0)))
  | .vFloat64 q => .ok (boolWord (decide (q ≠ 0)))
  | v => .error ("cannot convert " ++ goTypeName v ++ " to bool")

def int16ToBytes (order : ByteOrder) (value : GoValue) : Except String (List Nat) :=
  match value with
  | .vInt16 n => .ok (putBytes order 2 (wrapU16 n))
  | .vInt n => .ok (putBytes order 2 (wrapU16 (wrapI16 n)))
  | .vInt32 n => .ok (putBytes order 2 (wrapU16 (wrapI16 n)))
  | .vInt64 n => .ok (putBytes order 2 (wrapU16 (wrapI16 n)))
  | .vFloat64 q => .ok (putBytes order 2 (wrapU16 (wrapI16 (qtrunc q))))
  | .vUInt16 n => .ok (putBytes order 2 (wrapU16 (wrapI16 (n : Int))))
  | v => .error ("cannot convert " ++ goTypeName v ++ " to int16")

def uint16ToBytes (order : ByteOrder) (value : GoValue) : Except String (List Nat) :=
  match value with
  | .vUInt16 n => .ok (putBytes order 2 n)
  | .vInt n => .ok (putBytes order 2 (wrapU16 n))
  | .vInt16 n => .ok (putBytes order 2 (wrapU16 n))
  | .vInt32 n => .ok (putBytes order 2 (wrapU16 n))
  | .vInt64 n => .ok (putBytes order 2 (wrapU16 n))
  | .vUInt n => .ok (putBytes order 2 (wrapU16 (n : Int)))
  | .vUInt32 n => .ok (putBytes order 2 (wrapU16 (n : Int)))
  | .vUInt64 n => .ok (putBytes order 2 (wrapU16 (n : Int)))
  | .vFloat64 q => .ok (putBytes order 2 (wrapU16 (qtrunc q)))
  | v => .error ("cannot convert " ++ goTypeName v ++ " to uint16")

def int32ToBytes (order : ByteOrder) (value : GoValue) : Except String (List Nat) :=
  match value with
  | .vInt32 n => .ok (putBytes order 4 (wrapU32 n))
  | .vInt n => .ok (putBytes order 4 (wrapU32 (wrapI32 n)))
  | .vInt16 n => .ok (putBytes order 4 (wrapU32 (wrapI32 n)))
  | .vInt64 n => .ok (putBytes order 4 (wrapU32 (wrapI32 n)))
  | .vFloat64 q => .ok (putBytes order 4 (wrapU32 (wrapI32 (qtrunc q))))
  | v => .error ("cannot convert " ++ goTypeName v ++ " to int32")

def uint32ToBytes (order : ByteOrder) (value : GoValue) : Except String (List Nat) :=
  match value with
  | .vUInt32 n => .ok (putBytes order 4 n)
  | .vInt n => .ok (putBytes order 4 (wrapU32 n))
  | .vInt32 n => .ok (putBytes order 4 (wrapU32 n))
  | .vInt64 n => .ok (putBytes order 4 (wrapU32 n))
  | .vUInt n => .ok (putBytes order 4 (wrapU32 (n : Int)))
  | .vUInt64 n => .ok (putBytes order 4 (wrapU32 (n : Int)))
  | .vFloat64 q => .ok (putBytes order 4 (wrapU32 (qtrunc q)))
  | v => .error ("cannot convert " ++ goTypeName v ++ " to uint32")

def float32ToBytes (order : ByteOrder) (value : GoValue) : Except String (List Nat) :=
  match value with
  | .vFloat32 q => .ok (putBytes order 4 (float32bits q))
  | .vFloat64 q => .ok (putBytes order 4 (float32bits q))
  | .vInt n => .ok (putBytes order 4 (float32bits (n : ℚ)))
  | .vInt32 n => .ok (putBytes order 4 (float32bits (n : ℚ)))
  | .vInt64 n => .ok (putBytes order 4 (float32bits (n : ℚ)))
  | v => .error ("cannot convert " ++ goTypeName v ++ " to float32")

def float64ToBytes (order : ByteOrder) (value : GoValue) : Except String (List Nat) :=
  match value with
  | .vFloat64 q => .ok (putBytes order 8 (float64bits q))
  | .vFloat32 q => .ok (putBytes order 8 (float64bits q))
  | .vInt n => .ok (putBytes order 8 (float64bits (n : ℚ)))
  | .vInt64 n => .ok (putBytes order 8 (float64bits (n : ℚ)))
  | v => .error ("cannot convert " ++ goTypeName v ++ " to float64")

def int64ToBytes (order : ByteOrder) (value : GoValue) : Except String (List Nat) :=
  match value with
  | .vInt64 n => .ok (putBytes order 8 (wrapU64 n))
  | .vInt n => .ok (putBytes order 8 (wrapU64 (wrapI64 n)))
  | .vInt32 n => .ok (putBytes order 8 (wrapU64 (wrapI64 n)))
  | .vFloat64 q => .ok (putBytes order 8 (wrapU64 (wrapI64 (qtrunc q))))
  | v => .error ("cannot convert " ++ goTypeName v ++ " to int64")

def uint64ToBytes (order : ByteOrder) (value : GoValue) : Except String (List Nat) :=
  match value with
  | .vUInt64 n => .ok (putBytes order 8 n)
  | .vInt n => .ok (putBytes order 8 (wrapU64 n))
  | .vInt64 n => .ok (putBytes order 8 (wrapU64 n))
  | .vUInt n => .ok (putBytes order 8 (wrapU64 (n : Int)))
  | .vUInt32 n => .ok (putBytes order 8 (wrapU64 (n : Int)))
  | .vFloat64 q => .ok (putBytes order 8 (wrapU64 (qtrunc q)))
  | v => .error ("cannot convert " ++ goTypeName v ++ " to uint64")

/-- ToRegisters: apply scale/offset, then dispatch on the value type;
unknown value types default to uint16. -/
def toRegisters (order : ByteOrder) (value : GoValue) (valueType : String)
    (scale offset : ℚ) : Except String (List Nat) :=
  let scaledValue := applyScaleOffset value scale offset
  if valueType = "bool" then boolToBytes scaledValue
  else if valueType = "int16" then int16ToBytes order scaledValue
  else if valueType = "uint16" then uint16ToBytes order scaledValue
  else if valueType = "int32" then int32ToBytes order scaledValue
  else if valueType = "uint32" then uint32ToBytes order scaledValue
  else if valueType = "float32" then float32ToBytes order scaledValue
  else if valueType = "float64" then float64ToBytes order scaledValue
  else if valueType = "int64" then int64ToBytes order scaledValue
  else if valueType = "uint64" then uint64ToBytes order scaledValue
  else uint16ToBytes order scaledValue

/-- GetRegisterCount: 16-bit words occupied by a value type (default 1). -/
def getRegisterCount (valueType : String) : Nat :=
  if valueType = "bool" ∨ valueType = "int16" ∨ valueType = "uint16" then 1
  else if valueType = "int32" ∨ valueType = "uint32" ∨ valueType = "float32" then 2
  else if valueType = "float64" ∨ valueType = "int64" ∨ valueType = "uint64" then 4
  else 1

/-- FromBytes: decode register bytes back to a value.  Note the switch
covers bool, int16, uint16, int32, uint32 and float32 only; every other
value type string (including float64, int64 and uint64) falls into the
default branch, which decodes a single 16-bit word. -/
def fromBytes (order : ByteOrder) (data : List Nat) (valueType : String)
    (scale offset : ℚ) : Except String GoValue :=
  let scale := if scale = 0 then 1 else scale
  if valueType = "bool" then
    if data.length < 2 then .error "insufficient data for bool"
    else .ok (.vBool (decide (data.getD 0 0 ≠ 0) || decide (data.getD 1 0 ≠ 0)))
  else if valueType = "int16" then
    if data.length < 2 then .error "insufficient data for int16"
    else .ok (.vFloat64 ((wrapI16 (getBytes order 2 data) : ℚ) * scale + offset))
  else if valueType = "uint16" then
    if data.length < 2 then .error "insufficient data for uint16"
    else .ok (.vFloat64 ((getBytes order 2 data : ℚ) * scale + offset))
  else if valueType = "int32" then
    if data.length < 4 then .error "insufficient data for int32"
    else .ok (.vFloat64 ((wrapI32 (getBytes order 4 data) : ℚ) * scale + offset))
  else if valueType = "uint32" then
    if data.length < 4 then .error "insufficient data for uint32"
    else .ok (.vFloat64 ((getBytes order 4 data : ℚ) * scale + offset))
  else if valueType = "float32" then
    if data.length < 4 then .error "insufficient data for float32"
    else .ok (.vFloat64 (float32frombits (getBytes order 4 data) * scale + offset))
  else
    if data.length < 2 then .error "insufficient data"
    else .ok (.vFloat64 ((getBytes order 2 data : ℚ) * scale + offset))

/-- The nine value types the data model declares as supported. -/
def supportedValueTypes : List String :=
  ["bool", "int16", "uint16", "int32", "uint32", "float32", "float64", "int64", "uint64"]

/-! ## Register cache (internal/pkg/mappingmanager/cache.go)

Instants and durations are integers (Go nanoseconds). -/

/-- CachedData: a TTL-tagged register-image entry. -/
structure CachedData where
  value : GoValue
  timestamp : Int
  ttl : Int
  northDevName : String
  resourceName : String
  valueType : String
  scale : ℚ
  offset : ℚ
  modbusAddress : Nat
deriving DecidableEq

/-- IsExpired at instant `now`: `time.Since(Timestamp) > TTL`. -/
def CachedData.isExpired (c : CachedData) (now : Int) : Bool :=
  decide (now - c.timestamp > c.ttl)

structure Cache where
  data : List (Nat × CachedData)
  defaultTTL : Int
deriving DecidableEq

def NewCache (defaultTTL : Int) : Cache := ⟨[], defaultTTL⟩

/-- The entry as Set actually stores it: default TTL substituted when
`ttl == 0`, timestamp stamped to the insertion instant. -/
def stampedEntry (c : Cache) (now : Int) (d : CachedData) : CachedData :=
  { d with ttl := if d.ttl = 0 then c.defaultTTL else d.ttl, timestamp := now }

/-- Set: substitute the default TTL when `ttl == 0`, stamp the timestamp
to the insertion instant, store under the address. -/
def Cache.set (c : Cache) (now : Int) (addr : Nat) (d : CachedData) : Cache :=
  { c with data := goInsert c.data addr (stampedEntry c now d) }

/-- Get: present and live, otherwise absent; expired entries stay stored. -/
def Cache.get (c : Cache) (now : Int) (addr : Nat) : Option CachedData :=
  match goLookup c.data addr with
  | none => none
  | some d => if d.isExpired now then none else some d

/-- GetRange: dense array of length `quantity`; 16-bit address wrap. -/
def Cache.getRange (c : Cache) (now : Int) (startAddr quantity : Nat) :
    List (Option CachedData) :=
  (List.range quantity).map (fun i =>
    match goLookup c.data ((startAddr + i) % 65536) with
    | some d => if d.isExpired now then none else some d
    | none => none)

def Cache.delete (c : Cache) (addr : Nat) : Cache :=
  { c with data := goErase c.data addr }

def Cache.clear (c : Cache) : Cache :=
  { c with data := [] }

/-- Cleanup: the Go loop ranges over the map, deletes every expired entry
and counts the deletions. -/
def Cache.cleanup (c : Cache) (now : Int) : Cache × Nat :=
  ({ c with data := c.data.filter (fun p => ! p.2.isExpired now) },
   (c.data.filter (fun p => p.2.isExpired now)).length)

/-- Size: number of stored entries, expired ones included. -/
def Cache.size (c : Cache) : Nat := c.data.length

/-- GetAll: a copy of every stored entry, expired ones included. -/
def Cache.getAll (c : Cache) : List (Nat × CachedData) := c.data

/-! ## Mapping index (internal/pkg/mappingmanager/mappingmanager.go,
the current generation with duplicate skipping and validation) -/

structure SouthResource where
  name : String
  valueType : String
  scale : ℚ
  offset : ℚ
  readWrite : String
deriving DecidableEq

structure ModbusParams where
  address : Nat
deriving DecidableEq

/-- The `OtherParameters` field of a north resource. -/
structure NorthOtherParameters where
  modbus : ModbusParams
deriving DecidableEq

structure NorthResource where
  name : String
  valueType : String
  scale : ℚ
  offsetValue : ℚ
  otherParameters : NorthOtherParameters
deriving DecidableEq

structure ResourceMapping where
  northResource : Option NorthResource
  southResource : Option SouthResource
deriving DecidableEq

structure DeviceMapping where
  northDeviceName : String
  resources : List ResourceMapping
deriving DecidableEq

/-- addressIndex: a Modbus address bound to its device and mapping. -/
structure AddressIndex where
  deviceName : String
  resourceMapping : ResourceMapping
deriving DecidableEq

/-- The warnings UpdateMappings logs, as structured events. -/
inductive MappingWarning where
  | nilNorthResource (deviceName : String)
  | nilSouthResource (deviceName resourceName : String)
  | duplicateAddress (addr : Nat)
      (newDeviceName newResourceName oldDeviceName oldResourceName : String)
  | resourceNameMismatch (addr : Nat) (northName southName : String)
  | valueTypeMismatch (resourceName : String) (addr : Nat) (northType southType : String)
deriving DecidableEq

/-- The state the resource loop of UpdateMappings threads: the address
map under construction, the warnings logged so far, and the two counters.
The device map is carried separately (the inner loop never touches it). -/
structure AddrState where
  addressMappings : List (Nat × AddressIndex)
  warnings : List MappingWarning
  validResourceCount : Nat
  skippedResourceCount : Nat
deriving DecidableEq

structure MappingState where
  deviceMappings : List (String × DeviceMapping)
  addrState : AddrState
deriving DecidableEq

/-- The north resource name of a bound mapping (bound entries always have
a north resource; the Go code dereferences it unconditionally). -/
def northNameOf (rm : ResourceMapping) : String :=
  match rm.northResource with
  | some nr => nr.name
  | none => ""

/-- One iteration of the inner resource loop of UpdateMappings:
skip nil north/south with a warning, skip duplicate addresses keeping the
first binding with a warning, warn on name/type mismatches, else bind. -/
def resourceStep (deviceName : String) (a : AddrState) (rm : ResourceMapping) :
    AddrState :=
  match rm.northResource with
  | none =>
    { a with warnings := a.warnings ++ [.nilNorthResource deviceName],
             skippedResourceCount := a.skippedResourceCount + 1 }
  | some nr =>
    match rm.southResource with
    | none =>
      { a with warnings := a.warnings ++ [.nilSouthResource deviceName nr.name],
               skippedResourceCount := a.skippedResourceCount + 1 }
    | some sr =>
      match goLookup a.addressMappings nr.otherParameters.modbus.address with
      | some existing =>
        { a with
            warnings := a.warnings ++
              [.duplicateAddress nr.otherParameters.modbus.address deviceName nr.name
                existing.deviceName (northNameOf existing.resourceMapping)],
            skippedResourceCount := a.skippedResourceCount + 1 }
      | none =>
        { a with
            addressMappings := goInsert a.addressMappings nr.otherParameters.modbus.address
              ⟨deviceName, rm⟩,
            warnings := a.warnings ++
              (if nr.name ≠ sr.name then
                [.resourceNameMismatch nr.otherParameters.modbus.address nr.name sr.name]
               else []) ++
              (if nr.valueType ≠ sr.valueType then
                [.valueTypeMismatch nr.name nr.otherParameters.modbus.address nr.valueType
                  sr.valueType]
               else []),
            validResourceCount := a.validResourceCount + 1 }

/-- One iteration of the outer device loop: enter the device into the
device map unconditionally, then process its resources. -/
def deviceStep (st : MappingState) (dm : DeviceMapping) : MappingState :=
  { deviceMappings := goInsert st.deviceMappings dm.northDeviceName dm,
    addrState := dm.resources.foldl (resourceStep dm.northDeviceName) st.addrState }

def initialMappingState : MappingState := ⟨[], ⟨[], [], 0, 0⟩⟩

/-- UpdateMappings: rebuild both maps from scratch over the input list.
The Go method always returns nil; the second component is that return. -/
def updateMappings (mappings : List DeviceMapping) : MappingState × Option String :=
  (mappings.foldl deviceStep initialMappingState, none)

/-- The resource-loop events of an UpdateMappings call, flattened in
iteration order with their device names. -/
def eventsOf (mappings : List DeviceMapping) : List (String × ResourceMapping) :=
  (mappings.map (fun dm => dm.resources.map (fun rm => (dm.northDeviceName, rm)))).flatten

/-- The resource step, as a function of a flattened event. -/
def evStep (a : AddrState) (ev : String × ResourceMapping) : AddrState :=
  resourceStep ev.1 a ev.2

/-- A bound (both sides present) resource event at address `addr`. -/
def isValidAt (addr : Nat) (ev : String × ResourceMapping) : Bool :=
  match ev.2.northResource, ev.2.southResource with
  | some nr, some _ => decide (nr.otherParameters.modbus.address = addr)
  | _, _ => false

/-- All bound resource events at `addr`, in binding order. -/
def boundAt (addr : Nat) (mappings : List DeviceMapping) : List (String × ResourceMapping) :=
  (eventsOf mappings).filter (isValidAt addr)

/-! ## Modbus server register reads (current generation:
RegisterReader.readRegisters and the function-code handlers) -/

inductive ModbusException where
  | success
  | illegalDataValue
  | illegalDataAddress
  | slaveDeviceFailure
deriving DecidableEq

/-- The word-by-word range walk of RegisterReader.readRegisters.  The
cache argument is GetCachedValue (live entries only); addresses wrap at
16 bits as in Go uint16 arithmetic.  The ForwardedData audit side-channel
does not influence the emitted bytes and is not modelled here. -/
def readWords (cache : Nat → Option CachedData) : Nat → Nat → List Nat
  | _, 0 => []
  | addr, r + 1 =>
    match cache (addr % 65536) with
    | none => 0 :: 0 :: readWords cache (addr + 1) r
    | some d =>
      match toRegisters .big d.value d.valueType d.scale d.offset with
      | .error _ => 0 :: 0 :: readWords cache (addr + 1) r
      | .ok bs =>
        let rc := getRegisterCount d.valueType
        let fill := min rc (r + 1)
        let seg := if 2 * fill ≤ bs.length then bs.take (2 * fill)
                   else List.replicate (2 * fill) 0
        seg ++ readWords cache (addr + fill) (r + 1 - fill)
termination_by _ r => r
decreasing_by
  all_goals
    first
    | omega
    | (have hp : 0 < getRegisterCount d.valueType := by
         unfold getRegisterCount
         repeat' split
         all_goals omega
       omega)

/-- readRegisters: byte count `byte(quantity*2)` followed by the walk. -/
def readRegisters (cache : Nat → Option CachedData) (startAddr quantity : Nat) : List Nat :=
  2 * quantity % 256 :: readWords cache startAddr quantity

/-- The range-assembly walk exactly as the specification words it: at
each word consult the cache; a present datum emits `registerCount`
words of its encoded value (truncated to the remaining request) and
advances by that many words; an absent word emits one zero word and
advances by one.  Stated from the spec for comparison with `readWords`. -/
def specWalk (cache : Nat → Option CachedData) : Nat → Nat → List Nat
  | _, 0 => []
  | addr, r + 1 =>
    match cache (addr % 65536) with
    | none => 0 :: 0 :: specWalk cache (addr + 1) r
    | some d =>
      let w := getRegisterCount d.valueType
      let enc := match toRegisters .big d.value d.valueType d.scale d.offset with
        | .ok bs => bs
        | .error _ => []
      let fill := min w (r + 1)
      enc.take (2 * fill) ++ specWalk cache (addr + fill) (r + 1 - fill)
termination_by _ r => r
decreasing_by
  all_goals
    first
    | omega
    | (have hp : 0 < getRegisterCount d.valueType := by
         unfold getRegisterCount
         repeat' split
         all_goals omega
       omega)

/-- parseReadRequest: start address and quantity from the frame data,
rejecting short frames and quantities outside [minQty, maxQty]. -/
def parseReadRequest (frameData : List Nat) (minQty maxQty : Nat) : Option (Nat × Nat) :=
  if frameData.length < 4 then none
  else
    let startAddr := frameData.getD 0 0 * 256 + frameData.getD 1 0
    let quantity := frameData.getD 2 0 * 256 + frameData.getD 3 0
    if quantity < minQty ∨ maxQty < quantity then none
    else some (startAddr, quantity)

/-- handleReadHoldingRegisters (FC 0x03): quantity range 1..125; the
reader never fails, so the SlaveDeviceFailure path is unreachable. -/
def handleReadHoldingRegisters (cache : Nat → Option CachedData) (frameData : List Nat) :
    Option (List Nat) × ModbusException :=
  match parseReadRequest frameData 1 125 with
  | none => (none, .illegalDataValue)
  | some (startAddr, quantity) => (some (readRegisters cache startAddr quantity), .success)

/-- handleReadInputRegisters (FC 0x04): identical to the 0x03 path. -/
def handleReadInputRegisters (cache : Nat → Option CachedData) (frameData : List Nat) :
    Option (List Nat) × ModbusException :=
  match parseReadRequest frameData 1 125 with
  | none => (none, .illegalDataValue)
  | some (startAddr, quantity) => (some (readRegisters cache startAddr quantity), .success)

/-- checkWritePermission: no mapping, or a south resource marked
read-only, rejects with IllegalDataAddress. -/
def checkWritePermission (lookup : Nat → Option ResourceMapping) (addr : Nat) :
    Option ModbusException :=
  match lookup addr with
  | none => some .illegalDataAddress
  | some m =>
    match m.southResource with
    | some sr => if sr.readWrite = "R" then some .illegalDataAddress else none
    | none => none

/-- handleWriteSingleCoil (FC 0x05): validate the coil value, check the
mapping and permission, echo the request data on success. -/
def handleWriteSingleCoil (lookup : Nat → Option ResourceMapping) (frameData : List Nat) :
    Option (List Nat) × ModbusException :=
  if frameData.length < 4 then (none, .illegalDataValue)
  else
    let value := frameData.getD 2 0 * 256 + frameData.getD 3 0
    if value ≠ 0 ∧ value ≠ 65280 then (none, .illegalDataValue)
    else
      let addr := frameData.getD 0 0 * 256 + frameData.getD 1 0
      match checkWritePermission lookup addr with
      | some e => (none, e)
      | none => (some frameData, .success)

/-! ## MQTT request/response correlation (internal/pkg/mqtt/client.go)

The pending table maps request ids to capacity-1 notification channels;
channels are modelled as indexed single-slot buffers.  `publishAndWait`
is a function of the environment: whether the publish succeeded and the
sequence of responses the dispatcher processes before the timeout fires,
so a single invocation returns exactly once by construction. -/

structure MQTTResponse where
  requestID : String
  typ : Int
  code : Int
  msg : String
deriving DecidableEq

structure PendingState where
  pending : List (String × Nat)
  chans : List (Option MQTTResponse)
deriving DecidableEq

/-- Channel send under `select { case ch <- resp: default: }`: fill the
single-slot buffer only when it is empty, never block. -/
def chanSend (chans : List (Option MQTTResponse)) (cid : Nat) (r : MQTTResponse) :
    List (Option MQTTResponse) :=
  match chans.getD cid none with
  | none => chans.set cid (some r)
  | some _ => chans

/-- The response path of onMessage: a payload that decodes as a response
with non-zero code is delivered to the pending waiter (if any) and the
pending entry is deleted; otherwise the handler-dispatch paths leave the
pending table untouched. -/
def onMessageResponse (st : PendingState) (resp : MQTTResponse) : PendingState :=
  if resp.code = 0 then st
  else
    match goLookup st.pending resp.requestID with
    | some cid =>
      { pending := goErase st.pending resp.requestID,
        chans := chanSend st.chans cid resp }
    | none => st

inductive PAWResult where
  | ok (resp : MQTTResponse)
  | publishFailed
  | timedOut
deriving DecidableEq

/-- PublishAndWait: register a fresh capacity-1 channel under the request
id, publish (removing the entry and failing on publish error), then
either receive the delivered response or time out (removing the entry). -/
def publishAndWait (st : PendingState) (requestID : String) (publishOk : Bool)
    (arrivals : List MQTTResponse) : PAWResult × PendingState :=
  let cid := st.chans.length
  let st1 : PendingState := ⟨goInsert st.pending requestID cid, st.chans ++ [none]⟩
  if publishOk then
    let st2 := arrivals.foldl onMessageResponse st1
    match st2.chans.getD cid none with
    | some r => (.ok r, st2)
    | none => (.timedOut, ⟨goErase st2.pending requestID, st2.chans⟩)
  else
    (.publishFailed, ⟨goErase st1.pending requestID, st1.chans⟩)

/-- Correlation invariant for one publishAndWait call: the request id
maps to its own fresh channel `cid`, every other pending entry uses an
older channel, and the channel is either still empty with the entry
pending, or filled with a matching response with the entry removed. -/
def pawInv (reqID : String) (cid : Nat) (st : PendingState) : Prop :=
  (∀ p ∈ st.pending, p.1 = reqID → p.2 = cid) ∧
  (∀ p ∈ st.pending, p.1 ≠ reqID → p.2 < cid) ∧
  st.chans.length = cid + 1 ∧
  ((st.chans.getD cid none = none ∧ goLookup st.pending reqID = some cid) ∨
   (∃ r, st.chans.getD cid none = some r ∧ r.requestID = reqID ∧ r.code ≠ 0 ∧
     goLookup st.pending reqID = none))

/-- A concrete address-mapping lookup used in witnesses: address 5 is
bound to a mapping whose south resource is writable. -/
def coilLookupExample : Nat → Option ResourceMapping := fun a =>
  if a = 5 then some ⟨none, some ⟨"s", "uint16", 1, 0, "RW"⟩⟩ else none

/-- A concrete live-register view used in witnesses: address 10 holds a
two-word uint32 datum, every other address is empty. -/
def cacheExample : Nat → Option CachedData := fun a =>
  if a = 10 then some ⟨GoValue.vUInt32 7, 0, 100, "dev", "temp", "uint32", 1, 0, 10⟩ else none

/-! ## Lemmas about the Go map model -/

theorem goLookup_insert_self {α β : Type} [DecidableEq α] (m : List (α × β)) (k : α) (v : β) :
    goLookup (goInsert m k v) k = some v := by
  induction m with
  | nil => simp [goInsert, goLookup]
  | cons p rest ih =>
    by_cases h : p.1 = k
    · simp [goInsert, h, goLookup]
    · simp [goInsert, goLookup, h, ih]

theorem goLookup_insert_ne {α β : Type} [DecidableEq α] (m : List (α × β)) (k k2 : α) (v : β)
    (h : k2 ≠ k) : goLookup (goInsert m k v) k2 = goLookup m k2 := by
  have hk : ¬ k = k2 := fun hh => h hh.symm
  induction m with
  | nil => simp [goInsert, goLookup, hk]
  | cons p rest ih =>
    by_cases hp : p.1 = k
    · subst hp
      simp [goInsert, goLookup, hk]
    · simp [goInsert, hp, goLookup, ih]

theorem goLookup_erase_self {α β : Type} [DecidableEq α] (m : List (α × β)) (k : α) :
    goLookup (goErase m k) k = none := by
  induction m with
  | nil => simp [goErase, goLookup]
  | cons p rest ih =>
    by_cases h : p.1 = k
    · simpa [goErase, h] using ih
    · simpa [goErase, goLookup, h] using ih

theorem goLookup_erase_ne {α β : Type} [DecidableEq α] (m : List (α × β)) (k k2 : α)
    (h : k2 ≠ k) : goLookup (goErase m k) k2 = goLookup m k2 := by
  induction m with
  | nil => simp [goErase, goLookup]
  | cons p rest ih =>
    by_cases hp : p.1 = k
    · have hk : ¬ k = k2 := fun hh => h hh.symm
      simp [goErase, hp, goLookup, hk, ih]
    · simp [goErase, hp, goLookup, ih]

theorem mem_goInsert {α β : Type} [DecidableEq α] (m : List (α × β)) (k : α) (v : β)
    (p : α × β) (h : p ∈ goInsert m k v) : p = (k, v) ∨ p ∈ m := by
  induction m with
  | nil => simpa [goInsert] using h
  | cons q rest ih =>
    by_cases hq : q.1 = k
    · simp [goInsert, hq] at h
      rcases h with h | h
      · exact Or.inl h
      · exact Or.inr (List.mem_cons_of_mem _ h)
    · simp [goInsert, hq] at h
      rcases h with h | h
      · exact Or.inr (by simp [h])
      · rcases ih h with h2 | h2
        · exact Or.inl h2
        · exact Or.inr (List.mem_cons_of_mem _ h2)

theorem mem_goErase {α β : Type} [DecidableEq α] (m : List (α × β)) (k : α)
    (p : α × β) (h : p ∈ goErase m k) : p ∈ m := by
  induction m with
  | nil => simp [goErase] at h
  | cons q rest ih =>
    by_cases hq : q.1 = k
    · simp only [goErase, hq, if_pos rfl] at h
      exact List.mem_cons_of_mem _ (ih h)
    · simp only [goErase, hq, if_neg hq] at h
      rcases List.mem_cons.mp h with h2 | h2
      · simp [h2]
      · exact List.mem_cons_of_mem _ (ih h2)

theorem goLookup_mem {α β : Type} [DecidableEq α] (m : List (α × β)) (k : α) (v : β)
    (h : goLookup m k = some v) : (k, v) ∈ m := by
  induction m with
  | nil => simp [goLookup] at h
  | cons p rest ih =>
    by_cases hp : p.1 = k
    · simp [goLookup, hp] at h
      subst h
      simp [← hp]
    · simp [goLookup, hp] at h
      exact List.mem_cons_of_mem _ (ih h)

theorem keys_mem_goInsert {α β : Type} [DecidableEq α] (m : List (α × β)) (k : α) (v : β)
    (a : α) (h : a ∈ (goInsert m k v).map Prod.fst) : a = k ∨ a ∈ m.map Prod.fst := by
  rcases List.mem_map.mp h with ⟨p, hp, hpa⟩
  rcases mem_goInsert m k v p hp with heq | hmem
  · left
    rw [← hpa, heq]
  · right
    exact hpa ▸ List.mem_map_of_mem Prod.fst hmem

theorem keysNodup_goInsert {α β : Type} [DecidableEq α] (m : List (α × β)) (k : α) (v : β)
    (h : keysNodup m) : keysNodup (goInsert m k v) := by
  induction m with
  | nil => simp [goInsert, keysNodup]
  | cons p rest ih =>
    simp only [keysNodup, List.map_cons, List.nodup_cons] at h
    by_cases hp : p.1 = k
    · subst hp
      have hrw : goInsert (p :: rest) p.1 v = (p.1, v) :: rest := by
        simp [goInsert]
      rw [hrw]
      simpa [keysNodup] using h
    · have h2 := ih h.2
      simp only [goInsert, if_neg hp, keysNodup, List.map_cons, List.nodup_cons]
      refine ⟨?_, h2⟩
      intro hmem
      rcases keys_mem_goInsert rest k v p.1 hmem with heq | hin
      · exact hp heq
      · exact h.1 hin

theorem countKey_eq_one {α β : Type} [DecidableEq α] (m : List (α × β)) (k : α) (v : β)
    (hnd : keysNodup m) (h : goLookup m k = some v) : countKey m k = 1 := by
  induction m with
  | nil => simp [goLookup] at h
  | cons p rest ih =>
    simp only [keysNodup, List.map_cons, List.nodup_cons] at hnd
    by_cases hp : p.1 = k
    · have hout : ∀ q ∈ rest, ¬ q.1 = k := by
        intro q hq hqk
        exact hnd.1 (by rw [hp, ← hqk]; exact List.mem_map_of_mem Prod.fst hq)
      have hempty : rest.filter (fun q => decide (q.1 = k)) = [] := by
        apply List.filter_eq_nil_iff.mpr
        intro q hq
        simpa using hout q hq
      simp [countKey, hp, hempty]
    · simp only [goLookup, if_neg hp] at h
      have := ih hnd.2 h
      simpa [countKey, hp] using this

/-! ## Generic list lemmas -/

theorem length_filter_partition {α : Type} (l : List α) (p : α → Bool) :
    (l.filter p).length + (l.filter (fun a => ! p a)).length = l.length := by
  induction l with
  | nil => simp
  | cons a t ih =>
    cases h : p a <;> simp [List.filter_cons, h] <;> omega

theorem goLookup_eq_none_of_no_key {α β : Type} [DecidableEq α] (m : List (α × β)) (k : α)
    (h : ∀ q ∈ m, ¬ q.1 = k) : goLookup m k = none := by
  induction m with
  | nil => rfl
  | cons p rest ih =>
    have hp := h p (by simp)
    simp only [goLookup, if_neg hp]
    exact ih (fun q hq => h q (List.mem_cons_of_mem _ hq))

theorem goLookup_filter_of_pred_true {α β : Type} [DecidableEq α] (m : List (α × β)) (k : α)
    (v : β) (pred : α × β → Bool) (h : goLookup m k = some v) (hp : pred (k, v) = true) :
    goLookup (m.filter pred) k = some v := by
  induction m with
  | nil => simp [goLookup] at h
  | cons p rest ih =>
    by_cases hk : p.1 = k
    · simp only [goLookup, if_pos hk] at h
      obtain rfl : p.2 = v := Option.some.inj h
      have hpv : pred p = true := by
        have hpkv : p = (k, p.2) := Prod.ext hk rfl
        rw [hpkv]
        exact hp
      simp [List.filter_cons, hpv, goLookup, hk]
    · cases hc : pred p
      · simp only [goLookup, if_neg hk] at h
        simpa [List.filter_cons, hc] using ih h
      · simp only [goLookup, if_neg hk] at h
        simpa [List.filter_cons, hc, goLookup, hk] using ih h

theorem goLookup_filter_preds {α β : Type} [DecidableEq α] (m : List (α × β)) (k : α)
    (v : β) (pred : α × β → Bool) (h : goLookup (m.filter pred) k = some v) :
    pred (k, v) = true := by
  induction m with
  | nil => simp [goLookup] at h
  | cons p rest ih =>
    cases hc : pred p
    · rw [List.filter_cons, if_neg (by simp [hc])] at h
      exact ih h
    · rw [List.filter_cons, if_pos (by simp [hc])] at h
      by_cases hk : p.1 = k
      · simp only [goLookup, if_pos hk] at h
        obtain rfl : p.2 = v := Option.some.inj h
        have hpkv : p = (k, p.2) := Prod.ext hk rfl
        rw [← hpkv]
        exact hc
      · simp only [goLookup, if_neg hk] at h
        exact ih h

theorem goLookup_filter_of_pred_false {α β : Type} [DecidableEq α] (m : List (α × β)) (k : α)
    (v : β) (pred : α × β → Bool) (hnd : keysNodup m) (h : goLookup m k = some v)
    (hp : pred (k, v) = false) : goLookup (m.filter pred) k = none := by
  induction m with
  | nil => simp [goLookup] at h
  | cons p rest ih =>
    simp only [keysNodup, List.map_cons, List.nodup_cons] at hnd
    by_cases hk : p.1 = k
    · simp only [goLookup, if_pos hk] at h
      obtain rfl : p.2 = v := Option.some.inj h
      have hpv : pred p = false := by
        have hpkv : p = (k, p.2) := Prod.ext hk rfl
        rw [hpkv]
        exact hp
      rw [List.filter_cons, if_neg (by simp [hpv])]
      apply goLookup_eq_none_of_no_key
      intro q hq hqk
      have hqm : q ∈ rest := List.mem_of_mem_filter hq
      have hmem : q.1 ∈ List.map Prod.fst rest := List.mem_map_of_mem Prod.fst hqm
      rw [hqk, ← hk] at hmem
      exact hnd.1 hmem
    · cases hc : pred p
      · rw [List.filter_cons, if_neg (by simp [hc])]
        simp only [goLookup, if_neg hk] at h
        exact ih hnd.2 h
      · rw [List.filter_cons, if_pos (by simp [hc])]
        simp only [goLookup, if_neg hk] at h ⊢
        exact ih hnd.2 h

/-! ## Claims about the converter -/

/-- C2 (code bug evaluation): the specified round-trip property fails for
the 64-bit value types.  ToRegisters("uint64") emits the full 8-byte
big-endian encoding of the scaled value 1, but FromBytes("uint64") falls
into the uint16 default branch, reads only the first register word and
returns 0 instead of 1 (scale 1, offset 0). -/
theorem C2_fromBytes_uint64_roundtrip_lost :
    toRegisters .big (GoValue.vUInt64 1) "uint64" 1 0 = .ok [0, 0, 0, 0, 0, 0, 0, 1] ∧
    fromBytes .big [0, 0, 0, 0, 0, 0, 0, 1] "uint64" 1 0 = .ok (GoValue.vFloat64 0) ∧
    GoValue.vFloat64 0 ≠ GoValue.vUInt64 1 ∧ (0 : ℚ) ≠ 1 := by
  have ha : applyScaleOffset (GoValue.vUInt64 1) 1 0 = GoValue.vFloat64 1 := by
    simp only [applyScaleOffset]
    norm_num
  have hb : getBytes .big 2 [0, 0, 0, 0, 0, 0, 0, 1] = 0 := by decide
  refine ⟨?_, ?_, by simp, by norm_num⟩
  · simp only [toRegisters, ha]
    decide
  · simp only [fromBytes, hb]
    norm_num
    decide

/-- C8: every value type string outside the supported set is silently
treated as uint16: GetRegisterCount returns 1, ToRegisters takes the
uint16 default branch, and FromBytes (given at least one register word)
decodes a single 16-bit word; the unknown name itself raises no error. -/
theorem C8_unknown_valueType_treated_as_uint16 (t : String) (ht : t ∉ supportedValueTypes)
    (order : ByteOrder) (v : GoValue) (s o : ℚ) (d : List Nat) (hd : 2 ≤ d.length) :
    getRegisterCount t = 1 ∧
    toRegisters order v t s o = toRegisters order v "uint16" s o ∧
    fromBytes order d t s o = fromBytes order d "uint16" s o := by
  simp only [supportedValueTypes, List.mem_cons, List.not_mem_nil, or_false, not_or] at ht
  obtain ⟨h1, h2, h3, h4, h5, h6, h7, h8, h9⟩ := ht
  have hlen : ¬ d.length < 2 := by omega
  refine ⟨?_, ?_, ?_⟩
  · simp [getRegisterCount, h1, h2, h3, h4, h5, h6, h7, h8, h9]
  · simp [toRegisters, h1, h2, h3, h4, h5, h6, h7, h8, h9]
  · simp [fromBytes, h1, h2, h3, h4, h5, h6, hlen]

/-- C8 witness: concrete instance at the unknown type name "int8". -/
theorem C8_witness :
    getRegisterCount "int8" = 1 ∧
    toRegisters .big (GoValue.vInt 7) "int8" 1 0 = toRegisters .big (GoValue.vInt 7) "uint16" 1 0 ∧
    fromBytes .big [1, 2] "int8" 1 0 = fromBytes .big [1, 2] "uint16" 1 0 :=
  C8_unknown_valueType_treated_as_uint16 "int8" (by decide) .big (GoValue.vInt 7) 1 0 [1, 2]
    (by decide)

/-! ## Claims about the register cache -/

/-- C5: an entry stored by Set (TTL defaulted when 0, timestamp stamped
to the insertion instant) is returned by Get exactly while live
(now - timestamp ≤ ttl); once expired, Get reports absent although the
entry is still stored; Cleanup removes exactly the expired entries
(survivors are live, live entries survive unchanged, the expired stored
entry is gone) and returns their number. -/
theorem C5_cache_set_get_cleanup (c : Cache) (now : Int) (addr : Nat) (d : CachedData)
    (hwf : keysNodup c.data) :
    (∀ t : Int, t - now ≤ (stampedEntry c now d).ttl →
        (c.set now addr d).get t addr = some (stampedEntry c now d)) ∧
    (∀ t : Int, (stampedEntry c now d).ttl < t - now →
        (c.set now addr d).get t addr = none ∧
        goLookup (c.set now addr d).data addr = some (stampedEntry c now d)) ∧
    (∀ t : Int,
        ((c.set now addr d).cleanup t).2 + ((c.set now addr d).cleanup t).1.size
          = (c.set now addr d).size ∧
        (∀ a e, goLookup ((c.set now addr d).cleanup t).1.data a = some e →
            e.isExpired t = false) ∧
        (∀ a e, goLookup (c.set now addr d).data a = some e → e.isExpired t = false →
            goLookup ((c.set now addr d).cleanup t).1.data a = some e) ∧
        ((stampedEntry c now d).ttl < t - now →
            goLookup ((c.set now addr d).cleanup t).1.data addr = none)) := by
  have hlook : goLookup (c.set now addr d).data addr = some (stampedEntry c now d) :=
    goLookup_insert_self c.data addr (stampedEntry c now d)
  have hwf2 : keysNodup (c.set now addr d).data :=
    keysNodup_goInsert c.data addr (stampedEntry c now d) hwf
  refine ⟨?_, ?_, ?_⟩
  · intro t ht
    have hlive : (stampedEntry c now d).isExpired t = false := by
      simp only [CachedData.isExpired, stampedEntry, decide_eq_false_iff_not, not_lt]
      exact ht
    simp [Cache.get, hlook, hlive]
  · intro t ht
    have hexp : (stampedEntry c now d).isExpired t = true := by
      simp only [CachedData.isExpired, stampedEntry, decide_eq_true_eq]
      exact ht
    refine ⟨?_, hlook⟩
    simp [Cache.get, hlook, hexp]
  · intro t
    refine ⟨?_, ?_, ?_, ?_⟩
    · simp only [Cache.cleanup, Cache.size]
      exact length_filter_partition _ _
    · intro a e he
      exact Bool.not_eq_true _ ▸ by
        have := goLookup_filter_preds (c.set now addr d).data a e _ he
        simpa using this
    · intro a e he hlive
      exact goLookup_filter_of_pred_true _ a e _ he (by simp [hlive])
    · intro ht
      have hexp : (stampedEntry c now d).isExpired t = true := by
        simp only [CachedData.isExpired, stampedEntry, decide_eq_true_eq]
        exact ht
      exact goLookup_filter_of_pred_false _ addr _ _ hwf2 hlook (by simp [hexp])

/-- C5 witness: a concrete cache instance (default TTL 100) exercising
the theorem at address 1 with an entry whose own TTL is 0. -/
theorem C5_witness :
    (∀ t : Int, t - 0 ≤ (stampedEntry (NewCache 100) 0
        ⟨GoValue.vUInt16 5, 0, 0, "dev", "res", "uint16", 1, 0, 1⟩).ttl →
        ((NewCache 100).set 0 1 ⟨GoValue.vUInt16 5, 0, 0, "dev", "res", "uint16", 1, 0, 1⟩).get t 1
          = some (stampedEntry (NewCache 100) 0
              ⟨GoValue.vUInt16 5, 0, 0, "dev", "res", "uint16", 1, 0, 1⟩)) ∧
    (∀ t : Int, (stampedEntry (NewCache 100) 0
        ⟨GoValue.vUInt16 5, 0, 0, "dev", "res", "uint16", 1, 0, 1⟩).ttl < t - 0 →
        ((NewCache 100).set 0 1 ⟨GoValue.vUInt16 5, 0, 0, "dev", "res", "uint16", 1, 0, 1⟩).get t 1
          = none ∧
        goLookup ((NewCache 100).set 0 1
            ⟨GoValue.vUInt16 5, 0, 0, "dev", "res", "uint16", 1, 0, 1⟩).data 1
          = some (stampedEntry (NewCache 100) 0
              ⟨GoValue.vUInt16 5, 0, 0, "dev", "res", "uint16", 1, 0, 1⟩)) ∧
    (∀ t : Int,
        (((NewCache 100).set 0 1
            ⟨GoValue.vUInt16 5, 0, 0, "dev", "res", "uint16", 1, 0, 1⟩).cleanup t).2 +
          (((NewCache 100).set 0 1
            ⟨GoValue.vUInt16 5, 0, 0, "dev", "res", "uint16", 1, 0, 1⟩).cleanup t).1.size
          = ((NewCache 100).set 0 1
              ⟨GoValue.vUInt16 5, 0, 0, "dev", "res", "uint16", 1, 0, 1⟩).size ∧
        (∀ a e, goLookup ((((NewCache 100).set 0 1
            ⟨GoValue.vUInt16 5, 0, 0, "dev", "res", "uint16", 1, 0, 1⟩).cleanup t)).1.data a
            = some e → e.isExpired t = false) ∧
        (∀ a e, goLookup (((NewCache 100).set 0 1
            ⟨GoValue.vUInt16 5, 0, 0, "dev", "res", "uint16", 1, 0, 1⟩)).data a = some e →
            e.isExpired t = false →
            goLookup ((((NewCache 100).set 0 1
              ⟨GoValue.vUInt16 5, 0, 0, "dev", "res", "uint16", 1, 0, 1⟩).cleanup t)).1.data a
              = some e) ∧
        ((stampedEntry (NewCache 100) 0
            ⟨GoValue.vUInt16 5, 0, 0, "dev", "res", "uint16", 1, 0, 1⟩).ttl < t - 0 →
            goLookup ((((NewCache 100).set 0 1
              ⟨GoValue.vUInt16 5, 0, 0, "dev", "res", "uint16", 1, 0, 1⟩).cleanup t)).1.data 1
              = none)) :=
  C5_cache_set_get_cleanup (NewCache 100) 0 1
    ⟨GoValue.vUInt16 5, 0, 0, "dev", "res", "uint16", 1, 0, 1⟩ (by simp [NewCache, keysNodup])

/-- C10: an expired entry that no Cleanup/Delete/Clear has removed is
invisible to Get but still stored: GetAll returns it, and Size counts it
(Size equals the number of stored entries, expired ones included). -/
theorem C10_expired_entry_counted_but_invisible (c : Cache) (now : Int) (addr : Nat)
    (d : CachedData) (hraw : goLookup c.data addr = some d) (hexp : d.isExpired now = true) :
    c.get now addr = none ∧
    goLookup c.getAll addr = some d ∧
    (addr, d) ∈ c.getAll ∧
    c.size = c.getAll.length ∧
    0 < c.size := by
  refine ⟨?_, hraw, ?_, rfl, ?_⟩
  · simp [Cache.get, hraw, hexp]
  · exact goLookup_mem c.data addr d hraw
  · have := goLookup_mem c.data addr d hraw
    have hne : c.data ≠ [] := by
      intro hnil
      rw [hnil] at this
      exact absurd this (List.not_mem_nil _)
    simpa [Cache.size, List.length_pos] using hne

/-- C10 witness: a cache holding one entry that is already expired. -/
theorem C10_witness :
    (Cache.mk [(7, ⟨GoValue.vInt 3, 0, 5, "dev", "res", "int16", 1, 0, 7⟩)] 100).get 10 7 = none ∧
    goLookup (Cache.mk [(7, ⟨GoValue.vInt 3, 0, 5, "dev", "res", "int16", 1, 0, 7⟩)] 100).getAll 7
      = some ⟨GoValue.vInt 3, 0, 5, "dev", "res", "int16", 1, 0, 7⟩ ∧
    (7, (⟨GoValue.vInt 3, 0, 5, "dev", "res", "int16", 1, 0, 7⟩ : CachedData)) ∈
      (Cache.mk [(7, ⟨GoValue.vInt 3, 0, 5, "dev", "res", "int16", 1, 0, 7⟩)] 100).getAll ∧
    (Cache.mk [(7, ⟨GoValue.vInt 3, 0, 5, "dev", "res", "int16", 1, 0, 7⟩)] 100).size =
      (Cache.mk [(7, ⟨GoValue.vInt 3, 0, 5, "dev", "res", "int16", 1, 0, 7⟩)] 100).getAll.length ∧
    0 < (Cache.mk [(7, ⟨GoValue.vInt 3, 0, 5, "dev", "res", "int16", 1, 0, 7⟩)] 100).size :=
  C10_expired_entry_counted_but_invisible
    (Cache.mk [(7, ⟨GoValue.vInt 3, 0, 5, "dev", "res", "int16", 1, 0, 7⟩)] 100) 10 7
    ⟨GoValue.vInt 3, 0, 5, "dev", "res", "int16", 1, 0, 7⟩ (by decide) (by decide)

/-! ## Converter byte-width lemmas -/

theorem putBytes_length (order : ByteOrder) (width v : Nat) :
    (putBytes order width v).length = width := by
  cases order <;> simp [putBytes]

theorem boolWord_length (b : Bool) : (boolWord b).length = 2 := by
  cases b <;> rfl

theorem boolToBytes_ok_length (v : GoValue) (bs : List Nat)
    (h : boolToBytes v = .ok bs) : bs.length = 2 := by
  cases v <;> simp [boolToBytes] at h <;> rw [← h] <;> exact boolWord_length _

theorem int16ToBytes_ok_length (order : ByteOrder) (v : GoValue) (bs : List Nat)
    (h : int16ToBytes order v = .ok bs) : bs.length = 2 := by
  cases v <;> simp [int16ToBytes] at h <;> rw [← h] <;> exact putBytes_length _ _ _

theorem uint16ToBytes_ok_length (order : ByteOrder) (v : GoValue) (bs : List Nat)
    (h : uint16ToBytes order v = .ok bs) : bs.length = 2 := by
  cases v <;> simp [uint16ToBytes] at h <;> rw [← h] <;> exact putBytes_length _ _ _

theorem int32ToBytes_ok_length (order : ByteOrder) (v : GoValue) (bs : List Nat)
    (h : int32ToBytes order v = .ok bs) : bs.length = 4 := by
  cases v <;> simp [int32ToBytes] at h <;> rw [← h] <;> exact putBytes_length _ _ _

theorem uint32ToBytes_ok_length (order : ByteOrder) (v : GoValue) (bs : List Nat)
    (h : uint32ToBytes order v = .ok bs) : bs.length = 4 := by
  cases v <;> simp [uint32ToBytes] at h <;> rw [← h] <;> exact putBytes_length _ _ _

theorem float32ToBytes_ok_length (order : ByteOrder) (v : GoValue) (bs : List Nat)
    (h : float32ToBytes order v = .ok bs) : bs.length = 4 := by
  cases v <;> simp [float32ToBytes] at h <;> rw [← h] <;> exact putBytes_length _ _ _

theorem float64ToBytes_ok_length (order : ByteOrder) (v : GoValue) (bs : List Nat)
    (h : float64ToBytes order v = .ok bs) : bs.length = 8 := by
  cases v <;> simp [float64ToBytes] at h <;> rw [← h] <;> exact putBytes_length _ _ _

theorem int64ToBytes_ok_length (order : ByteOrder) (v : GoValue) (bs : List Nat)
    (h : int64ToBytes order v = .ok bs) : bs.length = 8 := by
  cases v <;> simp [int64ToBytes] at h <;> rw [← h] <;> exact putBytes_length _ _ _

theorem uint64ToBytes_ok_length (order : ByteOrder) (v : GoValue) (bs : List Nat)
    (h : uint64ToBytes order v = .ok bs) : bs.length = 8 := by
  cases v <;> simp [uint64ToBytes] at h <;> rw [← h] <;> exact putBytes_length _ _ _

/-- A successful ToRegisters encoding always occupies exactly
`2 * GetRegisterCount valueType` bytes. -/
theorem toRegisters_ok_length (order : ByteOrder) (v : GoValue) (t : String) (s o : ℚ)
    (bs : List Nat) (h : toRegisters order v t s o = .ok bs) :
    bs.length = 2 * getRegisterCount t := by
  unfold toRegisters at h
  by_cases h1 : t = "bool"
  · rw [if_pos h1] at h
    rw [boolToBytes_ok_length _ _ h, h1]
    decide
  rw [if_neg h1] at h
  by_cases h2 : t = "int16"
  · rw [if_pos h2] at h
    rw [int16ToBytes_ok_length _ _ _ h, h2]
    decide
  rw [if_neg h2] at h
  by_cases h3 : t = "uint16"
  · rw [if_pos h3] at h
    rw [uint16ToBytes_ok_length _ _ _ h, h3]
    decide
  rw [if_neg h3] at h
  by_cases h4 : t = "int32"
  · rw [if_pos h4] at h
    rw [int32ToBytes_ok_length _ _ _ h, h4]
    decide
  rw [if_neg h4] at h
  by_cases h5 : t = "uint32"
  · rw [if_pos h5] at h
    rw [uint32ToBytes_ok_length _ _ _ h, h5]
    decide
  rw [if_neg h5] at h
  by_cases h6 : t = "float32"
  · rw [if_pos h6] at h
    rw [float32ToBytes_ok_length _ _ _ h, h6]
    decide
  rw [if_neg h6] at h
  by_cases h7 : t = "float64"
  · rw [if_pos h7] at h
    rw [float64ToBytes_ok_length _ _ _ h, h7]
    decide
  rw [if_neg h7] at h
  by_cases h8 : t = "int64"
  · rw [if_pos h8] at h
    rw [int64ToBytes_ok_length _ _ _ h, h8]
    decide
  rw [if_neg h8] at h
  by_cases h9 : t = "uint64"
  · rw [if_pos h9] at h
    rw [uint64ToBytes_ok_length _ _ _ h, h9]
    decide
  rw [if_neg h9] at h
  rw [uint16ToBytes_ok_length _ _ _ h]
  simp [getRegisterCount, h1, h2, h3, h4, h5, h6, h7, h8, h9]

theorem getRegisterCount_pos (t : String) : 0 < getRegisterCount t := by
  unfold getRegisterCount
  repeat' split
  all_goals omega

/-! ## Range-walk lemmas -/

theorem readWords_length (cache : Nat → Option CachedData) :
    ∀ r addr, (readWords cache addr r).length = 2 * r := by
  intro r
  induction r using Nat.strong_induction_on with
  | _ r ih =>
    intro addr
    cases r with
    | zero =>
      rw [readWords]
      rfl
    | succ n =>
      rw [readWords]
      split
      · simp only [List.length_cons, ih n (by omega) (addr + 1)]
        omega
      · rename_i d hc
        split
        · simp only [List.length_cons, ih n (by omega) (addr + 1)]
          omega
        · rename_i bs ht
          have hrc := getRegisterCount_pos d.valueType
          have hbs := toRegisters_ok_length _ _ _ _ _ _ ht
          have hf1 : 1 ≤ min (getRegisterCount d.valueType) (n + 1) := by omega
          have hf2 : min (getRegisterCount d.valueType) (n + 1) ≤ n + 1 := by omega
          have hrec := ih (n + 1 - min (getRegisterCount d.valueType) (n + 1)) (by omega)
            (addr + min (getRegisterCount d.valueType) (n + 1))
          by_cases hsl : 2 * min (getRegisterCount d.valueType) (n + 1) ≤ bs.length
          · simp only [if_pos hsl, List.length_append, List.length_take, hrec]
            omega
          · simp only [if_neg hsl, List.length_append, List.length_replicate, hrec]
            omega

/-- The source walk and the specification walk agree whenever every
cached datum in scope encodes successfully (the dead zero-fill branch is
eliminated by the byte-width lemma). -/
theorem readWords_eq_specWalk (cache : Nat → Option CachedData)
    (henc : ∀ a d, cache a = some d →
      ∃ bs, toRegisters .big d.value d.valueType d.scale d.offset = Except.ok bs) :
    ∀ r addr, readWords cache addr r = specWalk cache addr r := by
  intro r
  induction r using Nat.strong_induction_on with
  | _ r ih =>
    intro addr
    cases r with
    | zero =>
      rw [readWords, specWalk]
    | succ n =>
      rw [readWords, specWalk]
      split
      · rename_i hc
        simp [hc, ih n (by omega) (addr + 1)]
      · rename_i d hc
        obtain ⟨bs, ht⟩ := henc _ d hc
        have hrc := getRegisterCount_pos d.valueType
        have hbs := toRegisters_ok_length _ _ _ _ _ _ ht
        have hsl : 2 * min (getRegisterCount d.valueType) (n + 1) ≤ bs.length := by omega
        split
        · rename_i e ht2
          rw [ht] at ht2
          exact absurd ht2 (by simp)
        · rename_i bs2 ht2
          rw [ht] at ht2
          obtain rfl : bs = bs2 := Except.ok.inj ht2
          simp [hc, ht, if_pos hsl, ih (n + 1 - min (getRegisterCount d.valueType) (n + 1))
            (by omega) (addr + min (getRegisterCount d.valueType) (n + 1))]

/-! ## Claims about the Modbus function-code handlers -/

/-- C3: a Read Holding/Input Registers response for N in-range words is
the byte count 2N followed by exactly 2N data bytes, assembled by the
word-by-word walk the specification describes: a live datum emits
registerCount(valueType) words of its encoding (truncated to the
remaining request) and advances by that many, an absent word emits one
zero word and advances by one.  The hypothesis henc says every datum in
the cache view encodes successfully. -/
theorem C3_readRegisters_word_walk (cache : Nat → Option CachedData)
    (startAddr quantity : Nat) (h1 : 1 ≤ quantity) (h2 : quantity ≤ 125)
    (henc : ∀ a d, cache a = some d →
      ∃ bs, toRegisters .big d.value d.valueType d.scale d.offset = Except.ok bs) :
    readRegisters cache startAddr quantity
      = 2 * quantity :: specWalk cache startAddr quantity ∧
    (specWalk cache startAddr quantity).length = 2 * quantity := by
  have heq := readWords_eq_specWalk cache henc quantity startAddr
  constructor
  · unfold readRegisters
    rw [heq, Nat.mod_eq_of_lt (by omega)]
  · rw [← heq]
    exact readWords_length cache quantity startAddr

/-- C3 witness: a three-word read over a cache holding one two-word
uint32 datum at address 10 and nothing else, starting at address 9. -/
theorem C3_witness :
    readRegisters cacheExample 9 3 = 2 * 3 :: specWalk cacheExample 9 3 ∧
    (specWalk cacheExample 9 3).length = 2 * 3 :=
  C3_readRegisters_word_walk cacheExample 9 3 (by decide) (by decide)
    (by
      intro a d h
      by_cases ha : a = 10
      · subst ha
        simp only [cacheExample, if_pos rfl] at h
        obtain rfl := Option.some.inj h
        exact ⟨_, rfl⟩
      · simp [cacheExample, ha] at h)

/-! ## Claims about the Modbus function-code handlers, continued -/

/-- C4: a Read Holding Registers (0x03) or Read Input Registers (0x04)
request whose quantity field lies outside 1..125 is answered with the
IllegalDataValue exception and no data. -/
theorem C4_read_quantity_out_of_range (cache : Nat → Option CachedData)
    (frameData : List Nat) (h4 : 4 ≤ frameData.length)
    (hq : frameData.getD 2 0 * 256 + frameData.getD 3 0 < 1 ∨
      125 < frameData.getD 2 0 * 256 + frameData.getD 3 0) :
    handleReadHoldingRegisters cache frameData = (none, ModbusException.illegalDataValue) ∧
    handleReadInputRegisters cache frameData = (none, ModbusException.illegalDataValue) := by
  have hlen : ¬ frameData.length < 4 := by omega
  have hp : parseReadRequest frameData 1 125 = none := by
    simp only [parseReadRequest, if_neg hlen]
    exact if_pos hq
  constructor
  · simp [handleReadHoldingRegisters, hp]
  · simp [handleReadInputRegisters, hp]

/-- C4 witness: quantity 126 on an empty cache is rejected. -/
theorem C4_witness :
    handleReadHoldingRegisters (fun _ => none) [3, 232, 0, 126]
      = (none, ModbusException.illegalDataValue) ∧
    handleReadInputRegisters (fun _ => none) [3, 232, 0, 126]
      = (none, ModbusException.illegalDataValue) :=
  C4_read_quantity_out_of_range (fun _ => none) [3, 232, 0, 126] (by decide) (by decide)

/-- C7: Write Single Coil (0x05) rejects a value other than 0x0000/0xFF00
with IllegalDataValue; with a legal value, a missing mapping or a south
resource marked readWrite == R is rejected with IllegalDataAddress, and
otherwise the request data is echoed with Success. -/
theorem C7_write_single_coil (lookup : Nat → Option ResourceMapping) (frameData : List Nat)
    (h4 : 4 ≤ frameData.length) :
    (frameData.getD 2 0 * 256 + frameData.getD 3 0 ≠ 0 ∧
        frameData.getD 2 0 * 256 + frameData.getD 3 0 ≠ 65280 →
      handleWriteSingleCoil lookup frameData = (none, ModbusException.illegalDataValue)) ∧
    (frameData.getD 2 0 * 256 + frameData.getD 3 0 = 0 ∨
        frameData.getD 2 0 * 256 + frameData.getD 3 0 = 65280 →
      (lookup (frameData.getD 0 0 * 256 + frameData.getD 1 0) = none →
        handleWriteSingleCoil lookup frameData = (none, ModbusException.illegalDataAddress)) ∧
      (∀ m sr, lookup (frameData.getD 0 0 * 256 + frameData.getD 1 0) = some m →
        m.southResource = some sr → sr.readWrite = "R" →
        handleWriteSingleCoil lookup frameData = (none, ModbusException.illegalDataAddress)) ∧
      (∀ m, lookup (frameData.getD 0 0 * 256 + frameData.getD 1 0) = some m →
        (∀ sr, m.southResource = some sr → sr.readWrite ≠ "R") →
        handleWriteSingleCoil lookup frameData = (some frameData, ModbusException.success))) := by
  have hlen : ¬ frameData.length < 4 := by omega
  constructor
  · intro hv
    unfold handleWriteSingleCoil
    rw [if_neg hlen, if_pos hv]
  · intro hv
    have hvneg : ¬ (frameData.getD 2 0 * 256 + frameData.getD 3 0 ≠ 0 ∧
        frameData.getD 2 0 * 256 + frameData.getD 3 0 ≠ 65280) := by
      intro hcon
      rcases hv with h | h
      · exact hcon.1 h
      · exact hcon.2 h
    refine ⟨?_, ?_, ?_⟩
    · intro hnone
      unfold handleWriteSingleCoil
      rw [if_neg hlen, if_neg hvneg]
      unfold checkWritePermission
      simp only [hnone]
    · intro m sr hm hs hr
      unfold handleWriteSingleCoil
      rw [if_neg hlen, if_neg hvneg]
      unfold checkWritePermission
      simp only [hm, hs]
      rw [if_pos hr]
    · intro m hm hns
      unfold handleWriteSingleCoil
      rw [if_neg hlen, if_neg hvneg]
      unfold checkWritePermission
      cases hs : m.southResource with
      | none => simp only [hm, hs]
      | some sr =>
        simp only [hm, hs]
        rw [if_neg (hns sr hs)]

/-- C7 witness: the theorem instantiated at frame [0,5,255,0]
(address 5, value 0xFF00) and a lookup with a writable mapping at 5. -/
theorem C7_witness :
    ([0, 5, 255, 0].getD 2 0 * 256 + [0, 5, 255, 0].getD 3 0 ≠ 0 ∧
        [0, 5, 255, 0].getD 2 0 * 256 + [0, 5, 255, 0].getD 3 0 ≠ 65280 →
      handleWriteSingleCoil coilLookupExample [0, 5, 255, 0]
        = (none, ModbusException.illegalDataValue)) ∧
    ([0, 5, 255, 0].getD 2 0 * 256 + [0, 5, 255, 0].getD 3 0 = 0 ∨
        [0, 5, 255, 0].getD 2 0 * 256 + [0, 5, 255, 0].getD 3 0 = 65280 →
      (coilLookupExample ([0, 5, 255, 0].getD 0 0 * 256 + [0, 5, 255, 0].getD 1 0) = none →
        handleWriteSingleCoil coilLookupExample [0, 5, 255, 0]
          = (none, ModbusException.illegalDataAddress)) ∧
      (∀ m sr,
        coilLookupExample ([0, 5, 255, 0].getD 0 0 * 256 + [0, 5, 255, 0].getD 1 0) = some m →
        m.southResource = some sr → sr.readWrite = "R" →
        handleWriteSingleCoil coilLookupExample [0, 5, 255, 0]
          = (none, ModbusException.illegalDataAddress)) ∧
      (∀ m,
        coilLookupExample ([0, 5, 255, 0].getD 0 0 * 256 + [0, 5, 255, 0].getD 1 0) = some m →
        (∀ sr, m.southResource = some sr → sr.readWrite ≠ "R") →
        handleWriteSingleCoil coilLookupExample [0, 5, 255, 0]
          = (some [0, 5, 255, 0], ModbusException.success))) :=
  C7_write_single_coil coilLookupExample [0, 5, 255, 0] (by decide)

/-! ## Mapping-index lemmas -/

theorem resourceMapping_eta (rm : ResourceMapping) (nr : NorthResource) (sr : SouthResource)
    (h1 : rm.northResource = some nr) (h2 : rm.southResource = some sr) :
    rm = ⟨some nr, some sr⟩ := by
  cases rm
  simp_all

theorem isValidAt_spec (a : Nat) (ev : String × ResourceMapping)
    (h : isValidAt a ev = true) :
    ∃ nr sr, ev.2.northResource = some nr ∧ ev.2.southResource = some sr ∧
      nr.otherParameters.modbus.address = a := by
  unfold isValidAt at h
  split at h
  · rename_i nr sr heq1 heq2
    exact ⟨nr, sr, heq1, heq2, of_decide_eq_true h⟩
  · cases h

/-- A bound event at an unbound address inserts the binding. -/
theorem evStep_bound_insert (a : AddrState) (dn : String) (nr : NorthResource)
    (sr : SouthResource)
    (hl : goLookup a.addressMappings nr.otherParameters.modbus.address = none) :
    evStep a (dn, ⟨some nr, some sr⟩) = { a with
      addressMappings := goInsert a.addressMappings nr.otherParameters.modbus.address
        ⟨dn, ⟨some nr, some sr⟩⟩,
      warnings := a.warnings ++
        (if nr.name ≠ sr.name then
          [.resourceNameMismatch nr.otherParameters.modbus.address nr.name sr.name] else []) ++
        (if nr.valueType ≠ sr.valueType then
          [.valueTypeMismatch nr.name nr.otherParameters.modbus.address nr.valueType sr.valueType]
         else []),
      validResourceCount := a.validResourceCount + 1 } := by
  unfold evStep resourceStep
  simp only [hl]

/-- A bound event at an already-bound address is skipped with the
duplicate warning naming both sides. -/
theorem evStep_bound_dup (a : AddrState) (dn : String) (nr : NorthResource)
    (sr : SouthResource) (existing : AddressIndex)
    (hl : goLookup a.addressMappings nr.otherParameters.modbus.address = some existing) :
    evStep a (dn, ⟨some nr, some sr⟩) = { a with
      warnings := a.warnings ++
        [.duplicateAddress nr.otherParameters.modbus.address dn nr.name
          existing.deviceName (northNameOf existing.resourceMapping)],
      skippedResourceCount := a.skippedResourceCount + 1 } := by
  unfold evStep resourceStep
  simp only [hl]

theorem evStep_lookup_some (a : AddrState) (ev : String × ResourceMapping) (k : Nat)
    (e : AddressIndex) (h : goLookup a.addressMappings k = some e) :
    goLookup (evStep a ev).addressMappings k = some e := by
  unfold evStep resourceStep
  split
  · exact h
  · split
    · exact h
    · split
      · exact h
      · rename_i q0 nr hnr q1 sr hsr q2 hl
        have hne : k ≠ nr.otherParameters.modbus.address := by
          intro hh
          rw [hh, hl] at h
          exact Option.noConfusion h
        rw [goLookup_insert_ne _ _ _ _ hne]
        exact h

theorem foldl_evStep_lookup_some (k : Nat) (e : AddressIndex) :
    ∀ (evs : List (String × ResourceMapping)) (a : AddrState),
      goLookup a.addressMappings k = some e →
      goLookup ((evs.foldl evStep a).addressMappings) k = some e := by
  intro evs
  induction evs with
  | nil => intro a h; exact h
  | cons f t ih =>
    intro a h
    exact ih (evStep a f) (evStep_lookup_some a f k e h)

theorem evStep_warnings_mono (a : AddrState) (ev : String × ResourceMapping)
    (w : MappingWarning) (h : w ∈ a.warnings) : w ∈ (evStep a ev).warnings := by
  unfold evStep resourceStep
  repeat' split
  all_goals simp [h]

theorem foldl_evStep_warnings_mono (w : MappingWarning) :
    ∀ (evs : List (String × ResourceMapping)) (a : AddrState),
      w ∈ a.warnings → w ∈ (evs.foldl evStep a).warnings := by
  intro evs
  induction evs with
  | nil => intro a h; exact h
  | cons f t ih =>
    intro a h
    exact ih (evStep a f) (evStep_warnings_mono a f w h)

theorem evStep_lookup_none (a : AddrState) (ev : String × ResourceMapping) (k : Nat)
    (h : goLookup a.addressMappings k = none) (hv : isValidAt k ev = false) :
    goLookup (evStep a ev).addressMappings k = none := by
  unfold evStep resourceStep
  split
  · exact h
  · split
    · exact h
    · split
      · exact h
      · rename_i q0 nr hnr q1 sr hsr q2 hl
        have hne : k ≠ nr.otherParameters.modbus.address := by
          intro hh
          have hvt : isValidAt k ev = true := by
            unfold isValidAt
            rw [hnr, hsr]
            exact decide_eq_true hh.symm
          rw [hvt] at hv
          cases hv
        rw [goLookup_insert_ne _ _ _ _ hne]
        exact h

theorem evStep_keysNodup (a : AddrState) (ev : String × ResourceMapping)
    (h : keysNodup a.addressMappings) : keysNodup (evStep a ev).addressMappings := by
  unfold evStep resourceStep
  repeat' split
  all_goals first
  | exact h
  | exact keysNodup_goInsert _ _ _ h

theorem foldl_evStep_keysNodup :
    ∀ (evs : List (String × ResourceMapping)) (a : AddrState),
      keysNodup a.addressMappings → keysNodup ((evs.foldl evStep a).addressMappings) := by
  intro evs
  induction evs with
  | nil => intro a h; exact h
  | cons f t ih =>
    intro a h
    exact ih (evStep a f) (evStep_keysNodup a f h)

/-- Once an address is bound to `e`, every later bound event at that
address is skipped with a duplicate warning naming the new side and `e`. -/
theorem foldl_evStep_dup_warning (k : Nat) :
    ∀ (evs : List (String × ResourceMapping)) (a : AddrState) (e : AddressIndex),
      goLookup a.addressMappings k = some e →
      ∀ y ∈ evs, isValidAt k y = true →
      MappingWarning.duplicateAddress k y.1 (northNameOf y.2) e.deviceName
        (northNameOf e.resourceMapping) ∈ (evs.foldl evStep a).warnings := by
  intro evs
  induction evs with
  | nil =>
    intro a e hl y hy
    cases hy
  | cons f t ih =>
    intro a e hl y hy hv
    rcases List.mem_cons.mp hy with rfl | hyt
    · obtain ⟨nr, sr, hnr, hsr, haddr⟩ := isValidAt_spec k y hv
      obtain ⟨dn, rm⟩ := y
      obtain rfl : rm = ⟨some nr, some sr⟩ := resourceMapping_eta rm nr sr hnr hsr
      have hl2 : goLookup a.addressMappings nr.otherParameters.modbus.address = some e := by
        rw [haddr]
        exact hl
      have hstep := evStep_bound_dup a dn nr sr e hl2
      apply foldl_evStep_warnings_mono _ t (evStep a (dn, ⟨some nr, some sr⟩))
      rw [hstep]
      simp [northNameOf, haddr]
    · exact ih (evStep a f) e (evStep_lookup_some a f k e hl) y hyt hv

/-- Over any event sequence starting from a state with `k` unbound, when
the bound events at `k` are `x :: y :: rest`, the final map binds `k` to
`x` and the warnings contain the duplicate warning for `y` against `x`. -/
theorem foldl_evStep_first_bound (k : Nat) :
    ∀ (evs : List (String × ResourceMapping)) (a : AddrState),
      goLookup a.addressMappings k = none →
      ∀ x y rest, evs.filter (isValidAt k) = x :: y :: rest →
      goLookup ((evs.foldl evStep a).addressMappings) k = some ⟨x.1, x.2⟩ ∧
      MappingWarning.duplicateAddress k y.1 (northNameOf y.2) x.1 (northNameOf x.2)
        ∈ (evs.foldl evStep a).warnings := by
  intro evs
  induction evs with
  | nil =>
    intro a h x y rest hf
    simp at hf
  | cons f t ih =>
    intro a h x y rest hf
    cases hv : isValidAt k f with
    | false =>
      rw [List.filter_cons, if_neg (by simp [hv])] at hf
      exact ih (evStep a f) (evStep_lookup_none a f k h hv) x y rest hf
    | true =>
      rw [List.filter_cons, if_pos (by simp [hv])] at hf
      have hft : t.filter (isValidAt k) = y :: rest := by
        injection hf
      obtain rfl : f = x := by
        injection hf
      obtain ⟨nr, sr, hnr, hsr, haddr⟩ := isValidAt_spec k f hv
      obtain ⟨dn, rm⟩ := f
      obtain rfl : rm = ⟨some nr, some sr⟩ := resourceMapping_eta rm nr sr hnr hsr
      have hl2 : goLookup a.addressMappings nr.otherParameters.modbus.address = none := by
        rw [haddr]
        exact h
      have hstep := evStep_bound_insert a dn nr sr hl2
      have hbound : goLookup (evStep a (dn, ⟨some nr, some sr⟩)).addressMappings k
          = some ⟨dn, ⟨some nr, some sr⟩⟩ := by
        rw [hstep]
        show goLookup (goInsert a.addressMappings nr.otherParameters.modbus.address
          ⟨dn, ⟨some nr, some sr⟩⟩) k = _
        rw [← haddr]
        exact goLookup_insert_self _ _ _
      constructor
      · exact foldl_evStep_lookup_some k _ t _ hbound
      · have hy : y ∈ t ∧ isValidAt k y = true := by
          have : y ∈ t.filter (isValidAt k) := by
            rw [hft]
            simp
          exact ⟨List.mem_of_mem_filter this, List.of_mem_filter this⟩
        have := foldl_evStep_dup_warning k t (evStep a (dn, ⟨some nr, some sr⟩))
          ⟨dn, ⟨some nr, some sr⟩⟩ hbound y hy.1 hy.2
        simpa [northNameOf] using this

/-- The address-state component of the device fold equals the flat event
fold: the device loop only adds device-map insertions in between. -/
theorem foldl_deviceStep_addrState (ms : List DeviceMapping) :
    ∀ st : MappingState,
      (ms.foldl deviceStep st).addrState = (eventsOf ms).foldl evStep st.addrState := by
  induction ms with
  | nil => intro st; rfl
  | cons dm t ih =>
    intro st
    rw [List.foldl_cons, ih]
    unfold eventsOf
    rw [List.map_cons, List.flatten_cons, List.foldl_append]
    congr 1
    show dm.resources.foldl (resourceStep dm.northDeviceName) st.addrState = _
    rw [List.foldl_map]
    rfl

/-- The device-map component of the device fold is the plain insertion
fold over the input devices. -/
theorem foldl_deviceStep_devMap (ms : List DeviceMapping) :
    ∀ st : MappingState,
      (ms.foldl deviceStep st).deviceMappings
        = ms.foldl (fun m dm => goInsert m dm.northDeviceName dm) st.deviceMappings := by
  induction ms with
  | nil => intro st; rfl
  | cons dm t ih =>
    intro st
    rw [List.foldl_cons, ih, List.foldl_cons]
    rfl

theorem foldl_devInsert_no_name (n : String) :
    ∀ (ms : List DeviceMapping) (m : List (String × DeviceMapping)),
      (∀ dm ∈ ms, dm.northDeviceName ≠ n) →
      goLookup (ms.foldl (fun m dm => goInsert m dm.northDeviceName dm) m) n = goLookup m n := by
  intro ms
  induction ms with
  | nil => intro m h; rfl
  | cons dm t ih =>
    intro m h
    rw [List.foldl_cons, ih _ (fun d hd => h d (List.mem_cons_of_mem _ hd))]
    exact goLookup_insert_ne _ _ _ _ (fun hh => h dm (by simp) hh.symm)

theorem foldl_devInsert_lookup (n : String) :
    ∀ (ms : List DeviceMapping) (m : List (String × DeviceMapping)),
      (∃ dm ∈ ms, dm.northDeviceName = n) →
      ∃ dm2, dm2 ∈ ms ∧ dm2.northDeviceName = n ∧
        goLookup (ms.foldl (fun m dm => goInsert m dm.northDeviceName dm) m) n = some dm2 := by
  intro ms
  induction ms with
  | nil =>
    intro m h
    obtain ⟨dm, hdm, _⟩ := h
    cases hdm
  | cons f t ih =>
    intro m h
    by_cases hex : ∃ dm ∈ t, dm.northDeviceName = n
    · obtain ⟨dm2, h1, h2, h3⟩ := ih _ hex
      exact ⟨dm2, List.mem_cons_of_mem _ h1, h2, h3⟩
    · obtain ⟨dm, hdm, hn⟩ := h
      have hfn : f.northDeviceName = n := by
        rcases List.mem_cons.mp hdm with rfl | hmem
        · exact hn
        · exact absurd ⟨dm, hmem, hn⟩ hex
      refine ⟨f, by simp, hfn, ?_⟩
      rw [List.foldl_cons]
      rw [foldl_devInsert_no_name n t _ (fun d hd hh => hex ⟨d, hd, hh⟩)]
      rw [← hfn]
      exact goLookup_insert_self _ _ _

/-! ## Claims about UpdateMappings -/

/-- C1: when the bound resource events of one UpdateMappings input carry
the same Modbus address (first x, then y), the rebuilt address map holds
exactly one entry at that address, namely the first-bound resource x, and
the warnings contain the duplicate-address warning naming y (the skipped
side) and x (the kept side). -/
theorem C1_updateMappings_first_bound_wins (mappings : List DeviceMapping) (addr : Nat)
    (x y : String × ResourceMapping) (rest : List (String × ResourceMapping))
    (hb : boundAt addr mappings = x :: y :: rest) :
    goLookup (updateMappings mappings).1.addrState.addressMappings addr = some ⟨x.1, x.2⟩ ∧
    countKey (updateMappings mappings).1.addrState.addressMappings addr = 1 ∧
    MappingWarning.duplicateAddress addr y.1 (northNameOf y.2) x.1 (northNameOf x.2)
      ∈ (updateMappings mappings).1.addrState.warnings := by
  have hflat := foldl_deviceStep_addrState mappings initialMappingState
  unfold boundAt at hb
  have hmain := foldl_evStep_first_bound addr (eventsOf mappings)
    initialMappingState.addrState rfl x y rest hb
  have hnd : keysNodup ((eventsOf mappings).foldl evStep
      initialMappingState.addrState).addressMappings :=
    foldl_evStep_keysNodup (eventsOf mappings) initialMappingState.addrState (by simp [keysNodup, initialMappingState])
  refine ⟨?_, ?_, ?_⟩
  · show goLookup (mappings.foldl deviceStep initialMappingState).addrState.addressMappings addr
      = some ⟨x.1, x.2⟩
    rw [hflat]
    exact hmain.1
  · show countKey (mappings.foldl deviceStep initialMappingState).addrState.addressMappings addr
      = 1
    rw [hflat]
    exact countKey_eq_one _ _ _ hnd hmain.1
  · show MappingWarning.duplicateAddress addr y.1 (northNameOf y.2) x.1 (northNameOf x.2)
      ∈ (mappings.foldl deviceStep initialMappingState).addrState.warnings
    rw [hflat]
    exact hmain.2

/-- C1 witness: one device binding two resources at address 1000; the
first stays, the second is skipped with the duplicate warning. -/
theorem C1_witness :
    goLookup (updateMappings
        [⟨"device1", [⟨some ⟨"temp1", "uint16", 1, 0, ⟨⟨1000⟩⟩⟩, some ⟨"t1", "uint16", 1, 0, "R"⟩⟩,
                      ⟨some ⟨"temp2", "uint16", 1, 0, ⟨⟨1000⟩⟩⟩, some ⟨"t2", "uint16", 1, 0, "R"⟩⟩]⟩]
      ).1.addrState.addressMappings 1000
      = some ⟨"device1", ⟨some ⟨"temp1", "uint16", 1, 0, ⟨⟨1000⟩⟩⟩,
          some ⟨"t1", "uint16", 1, 0, "R"⟩⟩⟩ ∧
    countKey (updateMappings
        [⟨"device1", [⟨some ⟨"temp1", "uint16", 1, 0, ⟨⟨1000⟩⟩⟩, some ⟨"t1", "uint16", 1, 0, "R"⟩⟩,
                      ⟨some ⟨"temp2", "uint16", 1, 0, ⟨⟨1000⟩⟩⟩, some ⟨"t2", "uint16", 1, 0, "R"⟩⟩]⟩]
      ).1.addrState.addressMappings 1000 = 1 ∧
    MappingWarning.duplicateAddress 1000 "device1" "temp2" "device1" "temp1"
      ∈ (updateMappings
        [⟨"device1", [⟨some ⟨"temp1", "uint16", 1, 0, ⟨⟨1000⟩⟩⟩, some ⟨"t1", "uint16", 1, 0, "R"⟩⟩,
                      ⟨some ⟨"temp2", "uint16", 1, 0, ⟨⟨1000⟩⟩⟩, some ⟨"t2", "uint16", 1, 0, "R"⟩⟩]⟩]
      ).1.addrState.warnings :=
  C1_updateMappings_first_bound_wins
    [⟨"device1", [⟨some ⟨"temp1", "uint16", 1, 0, ⟨⟨1000⟩⟩⟩, some ⟨"t1", "uint16", 1, 0, "R"⟩⟩,
                  ⟨some ⟨"temp2", "uint16", 1, 0, ⟨⟨1000⟩⟩⟩, some ⟨"t2", "uint16", 1, 0, "R"⟩⟩]⟩]
    1000
    ("device1", ⟨some ⟨"temp1", "uint16", 1, 0, ⟨⟨1000⟩⟩⟩, some ⟨"t1", "uint16", 1, 0, "R"⟩⟩)
    ("device1", ⟨some ⟨"temp2", "uint16", 1, 0, ⟨⟨1000⟩⟩⟩, some ⟨"t2", "uint16", 1, 0, "R"⟩⟩)
    [] (by decide)

/-- C9: UpdateMappings returns nil for every input and enters every input
device into the device map under its north device name (a same-named
device later in the list shadows earlier ones, and the rebuilt map holds
some input device of that name even when all its resources are skipped). -/
theorem C9_updateMappings_total_devices_entered (mappings : List DeviceMapping)
    (dm : DeviceMapping) (hdm : dm ∈ mappings) :
    (updateMappings mappings).2 = none ∧
    ∃ dm2, dm2 ∈ mappings ∧ dm2.northDeviceName = dm.northDeviceName ∧
      goLookup (updateMappings mappings).1.deviceMappings dm.northDeviceName = some dm2 := by
  refine ⟨rfl, ?_⟩
  have h := foldl_devInsert_lookup dm.northDeviceName mappings [] ⟨dm, hdm, rfl⟩
  obtain ⟨dm2, h1, h2, h3⟩ := h
  refine ⟨dm2, h1, h2, ?_⟩
  show goLookup (mappings.foldl deviceStep initialMappingState).deviceMappings
    dm.northDeviceName = some dm2
  rw [foldl_deviceStep_devMap]
  exact h3

/-- C9 witness: a device whose only resource mapping lacks both sides is
still entered into the device map, and the call returns nil. -/
theorem C9_witness :
    (updateMappings [⟨"devA", [⟨none, none⟩]⟩]).2 = none ∧
    ∃ dm2, dm2 ∈ [(⟨"devA", [⟨none, none⟩]⟩ : DeviceMapping)] ∧
      dm2.northDeviceName = (⟨"devA", [⟨none, none⟩]⟩ : DeviceMapping).northDeviceName ∧
      goLookup (updateMappings [⟨"devA", [⟨none, none⟩]⟩]).1.deviceMappings
        (⟨"devA", [⟨none, none⟩]⟩ : DeviceMapping).northDeviceName = some dm2 :=
  C9_updateMappings_total_devices_entered [⟨"devA", [⟨none, none⟩]⟩]
    ⟨"devA", [⟨none, none⟩]⟩ (by simp)

theorem no_key_of_goLookup_none {α β : Type} [DecidableEq α] (m : List (α × β)) (k : α)
    (h : goLookup m k = none) : ∀ p ∈ m, p.1 ≠ k := by
  induction m with
  | nil => intro p hp; simp at hp
  | cons q rest ih =>
    by_cases hq : q.1 = k
    · simp [goLookup, hq] at h
    · simp only [goLookup, if_neg hq] at h
      intro p hp
      rcases List.mem_cons.mp hp with rfl | hp2
      · exact hq
      · exact ih h p hp2

theorem listSet_getD_self (l : List (Option MQTTResponse)) (i : Nat) (x : Option MQTTResponse)
    (h : i < l.length) : (l.set i x).getD i none = x := by
  induction l generalizing i with
  | nil => simp at h
  | cons a t ih =>
    cases i with
    | zero => rfl
    | succ n => exact ih n (by simpa using h)

theorem listSet_getD_ne (l : List (Option MQTTResponse)) (i j : Nat) (x : Option MQTTResponse)
    (h : j ≠ i) : (l.set i x).getD j none = l.getD j none := by
  induction l generalizing i j with
  | nil => rfl
  | cons a t ih =>
    cases i with
    | zero =>
      cases j with
      | zero => exact absurd rfl h
      | succ m => rfl
    | succ n =>
      cases j with
      | zero => rfl
      | succ m => exact ih n m (fun hh => h (by rw [hh]))

theorem listGetD_append_len (l : List (Option MQTTResponse)) :
    (l ++ [none]).getD l.length none = none := by
  induction l with
  | nil => rfl
  | cons a t ih => exact ih

theorem chanSend_length (chans : List (Option MQTTResponse)) (cid : Nat) (r : MQTTResponse) :
    (chanSend chans cid r).length = chans.length := by
  unfold chanSend
  split
  · simp
  · rfl

theorem chanSend_getD_ne (chans : List (Option MQTTResponse)) (cid j : Nat) (r : MQTTResponse)
    (h : j ≠ cid) : (chanSend chans cid r).getD j none = chans.getD j none := by
  unfold chanSend
  split
  · exact listSet_getD_ne chans cid j (some r) h
  · rfl

theorem chanSend_fill (chans : List (Option MQTTResponse)) (cid : Nat) (r : MQTTResponse)
    (hch : chans.getD cid none = none) (h : cid < chans.length) :
    (chanSend chans cid r).getD cid none = some r := by
  unfold chanSend
  rw [hch]
  exact listSet_getD_self chans cid (some r) h

theorem onMessageResponse_pawInv (reqID : String) (cid : Nat) (st : PendingState)
    (resp : MQTTResponse) (h : pawInv reqID cid st) :
    pawInv reqID cid (onMessageResponse st resp) := by
  unfold pawInv at h ⊢
  obtain ⟨hA, hB, hC, hD⟩ := h
  unfold onMessageResponse
  by_cases hc0 : resp.code = 0
  · rw [if_pos hc0]; exact ⟨hA, hB, hC, hD⟩
  rw [if_neg hc0]
  cases hl : goLookup st.pending resp.requestID with
  | none => exact ⟨hA, hB, hC, hD⟩
  | some cid2 =>
    by_cases hreq : resp.requestID = reqID
    · have hmem := goLookup_mem st.pending resp.requestID cid2 hl
      have hcid2 : cid = cid2 := (hA (resp.requestID, cid2) hmem hreq).symm
      subst hcid2
      rcases hD with ⟨hch, hlk⟩ | ⟨r, hch, hrid, hrc, hlk⟩
      · refine ⟨?_, ?_, ?_, Or.inr ⟨resp, ?_, hreq, hc0, ?_⟩⟩
        · intro p hp hp1
          exact hA p (mem_goErase st.pending resp.requestID p hp) hp1
        · intro p hp hp1
          exact hB p (mem_goErase st.pending resp.requestID p hp) hp1
        · show (chanSend st.chans cid resp).length = cid + 1
          rw [chanSend_length]; exact hC
        · show (chanSend st.chans cid resp).getD cid none = some resp
          exact chanSend_fill st.chans cid resp hch (by omega)
        · show goLookup (goErase st.pending resp.requestID) reqID = none
          rw [← hreq]
          exact goLookup_erase_self st.pending resp.requestID
      · rw [hreq] at hl
        rw [hlk] at hl
        exact Option.noConfusion hl
    · have hmem := goLookup_mem st.pending resp.requestID cid2 hl
      have hlt : cid2 < cid := hB (resp.requestID, cid2) hmem hreq
      have hchEq : (chanSend st.chans cid2 resp).getD cid none = st.chans.getD cid none :=
        chanSend_getD_ne st.chans cid2 cid resp (by omega)
      have hlkEq : goLookup (goErase st.pending resp.requestID) reqID =
          goLookup st.pending reqID :=
        goLookup_erase_ne st.pending resp.requestID reqID (fun hh => hreq hh.symm)
      refine ⟨?_, ?_, ?_, ?_⟩
      · intro p hp hp1
        exact hA p (mem_goErase st.pending resp.requestID p hp) hp1
      · intro p hp hp1
        exact hB p (mem_goErase st.pending resp.requestID p hp) hp1
      · show (chanSend st.chans cid2 resp).length = cid + 1
        rw [chanSend_length]; exact hC
      · rcases hD with ⟨h1, h2⟩ | ⟨r, h1, h2, h3, h4⟩
        · exact Or.inl ⟨by rw [hchEq]; exact h1, by rw [hlkEq]; exact h2⟩
        · exact Or.inr ⟨r, by rw [hchEq]; exact h1, h2, h3, by rw [hlkEq]; exact h4⟩

theorem foldl_onMessageResponse_pawInv (reqID : String) (cid : Nat) :
    ∀ (arrivals : List MQTTResponse) (st : PendingState), pawInv reqID cid st →
      pawInv reqID cid (arrivals.foldl onMessageResponse st) := by
  intro arrivals
  induction arrivals with
  | nil => intro st h; exact h
  | cons a t ih => intro st h; exact ih _ (onMessageResponse_pawInv reqID cid st a h)

/-- C6: publishAndWait returns exactly once with either the matching
response — same request id, non-zero code — or an error, and on every
return path (response delivered, timeout, publish failure) the
pending-table entry for the request id has been removed. -/
theorem C6_publishAndWait_matching_and_cleanup (st : PendingState) (requestID : String)
    (publishOk : Bool) (arrivals : List MQTTResponse)
    (hfresh : goLookup st.pending requestID = none)
    (hwf : ∀ p ∈ st.pending, p.2 < st.chans.length) :
    goLookup (publishAndWait st requestID publishOk arrivals).2.pending requestID = none ∧
    ∀ r, (publishAndWait st requestID publishOk arrivals).1 = PAWResult.ok r →
      r.requestID = requestID ∧ r.code ≠ 0 := by
  have hnokey := no_key_of_goLookup_none st.pending requestID hfresh
  have hinv1 : pawInv requestID st.chans.length
      ⟨goInsert st.pending requestID st.chans.length, st.chans ++ [none]⟩ := by
    refine ⟨?_, ?_, by simp, Or.inl ⟨?_, ?_⟩⟩
    · intro p hp hp1
      rcases mem_goInsert st.pending requestID st.chans.length p hp with heq | hmem
      · rw [heq]
      · exact absurd hp1 (hnokey p hmem)
    · intro p hp hp1
      rcases mem_goInsert st.pending requestID st.chans.length p hp with heq | hmem
      · rw [heq] at hp1; exact absurd rfl hp1
      · exact hwf p hmem
    · exact listGetD_append_len st.chans
    · exact goLookup_insert_self st.pending requestID st.chans.length
  have hinv2 := foldl_onMessageResponse_pawInv requestID st.chans.length arrivals
      ⟨goInsert st.pending requestID st.chans.length, st.chans ++ [none]⟩ hinv1
  obtain ⟨hA2, hB2, hC2, hD2⟩ := hinv2
  simp only [publishAndWait]
  by_cases hp : publishOk = true
  · rw [if_pos hp]
    split
    · rename_i r hch
      rcases hD2 with ⟨h1, _⟩ | ⟨r2, h1, h2, h3, h4⟩
      · rw [hch] at h1; exact Option.noConfusion h1
      · rw [hch] at h1
        have hr2r : r = r2 := Option.some.inj h1
        refine ⟨h4, ?_⟩
        intro r3 hr3
        have hr3e : PAWResult.ok r = PAWResult.ok r3 := hr3
        have hrr3 : r = r3 := PAWResult.ok.inj hr3e
        rw [← hrr3, hr2r]
        exact ⟨h2, h3⟩
    · rename_i hch
      refine ⟨goLookup_erase_self _ requestID, ?_⟩
      intro r3 hr3
      simp at hr3
  · rw [if_neg hp]
    refine ⟨goLookup_erase_self _ requestID, ?_⟩
    intro r3 hr3
    simp at hr3

/-- C6 witness: starting from an empty pending table with one matching
arrival, the call leaves no pending entry for the request id and any ok
result carries that id with a non-zero code. -/
theorem C6_witness :
    goLookup (publishAndWait ⟨[], []⟩ "q" true [⟨"q", 5, 200, "ok"⟩]).2.pending "q" = none ∧
    ∀ r, (publishAndWait ⟨[], []⟩ "q" true [⟨"q", 5, 200, "ok"⟩]).1 = PAWResult.ok r →
      r.requestID = "q" ∧ r.code ≠ 0 :=
  C6_publishAndWait_matching_and_cleanup ⟨[], []⟩ "q" true [⟨"q", 5, 200, "ok"⟩]
    rfl (by simp)

end AppModbus
